import Mathlib

/-!
Verification of the W5500 raw-Ethernet driver
(`src/lib/lwip_wrapper/port/src/w5500.c`, `src/lib/lwip_wrapper/port/src/ethif.c`,
`src/lib/lwip_wrapper/port/include/ethif.h`).

The development embeds the driver at two levels.

* `W5500.Bus`: the byte-level SPI register-access protocol (`w5500_spi_io` and
  the buffer/word wrappers), parameterised over an abstract transport shim
  (`begin` / `end` / `txn`, as in `struct ethif`), together with a concrete
  chip-side model (`ChipSt`, `chipTxn`) that decodes the 3-byte header
  (offset high, offset low, control byte) and implements a per-block byte
  memory with in-transaction address auto-increment.

* `W5500.Reg`: the register-level driver operations (`w5500_rx`, `w5500_tx`,
  `w5500_init`, `w5500_poll`, and the lwIP adapter output path
  `ethif_output`), parameterised over an abstract register-level chip oracle
  (`Chip`): a state machine answering block/address reads and accepting
  writes.  Every register access is also recorded in an event trace (`Ev`),
  which is what claims about "never touches register X" or "the cursor write
  is committed before the acknowledgment wait" are stated over.

Machine integers are embedded as `Nat` with explicit `% 256` / `% 65536` at
the points where the C stores into `uint8_t` / `uint16_t`.  C shifts and
masks by constants are written in arithmetic form: `x >> 8` as `x / 256`,
`x & 255` as `x % 256`, `x & 0x1F` as `x % 32`, and `(hi << 8) | lo` (with
`lo < 256`) as `hi * 256 + lo`; non-contiguous masks (`0x1A`, `0x0A`,
`0x10`) keep the bitwise `&&&` form.  The `WAIT_OR_FAIL` busy-wait macro of
`ethif.h` becomes fuel recursion (`waitEvals`) evaluating the side-effecting
condition at most `max_iter + 1` times, exactly as the C `while` with its
post-increment counter check does.
-/

namespace W5500

/-! ### Register map constants (from the enums of `w5500.c`) -/

/-- Common register block selector. -/
def COMMON_REGISTER : Nat := 0

/-- Socket 0 register block selector. -/
def SOCKET0_REGISTER : Nat := 1

/-- Socket 0 TX buffer block selector. -/
def SOCKET0_TX_BUFFER : Nat := 2

/-- Socket 0 RX buffer block selector. -/
def SOCKET0_RX_BUFFER : Nat := 3

/-- Mode Register address. -/
def MR : Nat := 0x0000

/-- Source Hardware (MAC) Address Register address. -/
def SHAR : Nat := 0x0009

/-- PHY Configuration Register address. -/
def PHYCFGR : Nat := 0x002E

/-- Socket Mode Register address. -/
def Sn_MR : Nat := 0x0000

/-- Socket Command Register address. -/
def Sn_CR : Nat := 0x0001

/-- Socket Interrupt Register address. -/
def Sn_IR : Nat := 0x0002

/-- Socket Status Register address. -/
def Sn_SR : Nat := 0x0003

/-- RX Buffer Size Register address. -/
def Sn_RXBUF_SIZE : Nat := 0x001E

/-- TX Buffer Size Register address. -/
def Sn_TXBUF_SIZE : Nat := 0x001F

/-- TX Free Size Register address. -/
def Sn_TX_FSR : Nat := 0x0020

/-- TX Write Pointer Register address. -/
def Sn_TX_WR : Nat := 0x0024

/-- RX Received Size Register address. -/
def Sn_RX_RSR : Nat := 0x0026

/-- RX Read Pointer Register address. -/
def Sn_RX_RD : Nat := 0x0028

/-- Software reset bit of the mode register. -/
def MR_RST : Nat := 0x80

/-- MAC RAW socket mode. -/
def Sn_MR_MACRAW : Nat := 0x04

/-- MAC filtering enable bit for MACRAW mode. -/
def Sn_MR_MFEN : Nat := 0x80

/-- Socket command: open. -/
def Sn_CR_OPEN : Nat := 0x01

/-- Socket command: send. -/
def Sn_CR_SEND : Nat := 0x20

/-- Socket command: receive. -/
def Sn_CR_RECV : Nat := 0x40

/-- Socket interrupt flag: disconnected. -/
def Sn_IR_DISCON : Nat := 0x02

/-- Socket interrupt flag: timeout. -/
def Sn_IR_TIMEOUT : Nat := 0x08

/-- Socket interrupt flag: send completed. -/
def Sn_IR_SENDOK : Nat := 0x10

/-- Socket status: closed. -/
def SOCK_CLOSED : Nat := 0x00

/-- Socket status: closing. -/
def SOCK_CLOSING : Nat := 0x1A

/-- Socket status: time wait. -/
def SOCK_TIME_WAIT : Nat := 0x1B

/-- Socket status: close wait. -/
def SOCK_CLOSE_WAIT : Nat := 0x1C

/-- Socket status: MACRAW mode open. -/
def SOCK_MACRAW : Nat := 0x42

/-- PHY configuration: `use OPMDC` bit. -/
def PHYCFGR_OPMD : Nat := 0x40

/-- PHY configuration: all-capable auto-negotiation (`7 << 3`). -/
def PHYCFGR_OPMDC_ALLA : Nat := 0x38

/-- PHY configuration: link-up bit. -/
def PHYCFGR_LNK_ON : Nat := 0x01

/-- Iteration cap of the bounded-wait macro (`ethif.h`). -/
def MAX_LOOP_ITERATIONS : Nat := 1000

/-! ### The bounded-wait primitive

`WAIT_OR_FAIL(max_iter, condition, result)` in `ethif.h` evaluates the
side-effecting `condition`; as long as it is true it increments a counter,
and once the counter exceeds `max_iter` it sets `result` to false and
breaks.  So the condition is evaluated at most `max_iter + 1` times, the
result is `true` as soon as one evaluation is false, and `false` when all
`max_iter + 1` evaluations were true.  The side-effecting condition is
embedded as a function from a state (chip state, out-parameters and the
accumulated event trace) to the boolean outcome and the updated state. -/

/-- Evaluate `cond` up to `fuel` times; succeed (result `true`) as soon as
one evaluation returns `false`, give up (result `false`) when `fuel`
evaluations all returned `true`. -/
def waitEvals {α : Type} : Nat → (α → Bool × α) → α → Bool × α
  | 0, _, a => (false, a)
  | n + 1, cond, a =>
    let p := cond a
    if p.1 then waitEvals n cond p.2 else (true, p.2)

/-- The `WAIT_OR_FAIL` macro of `ethif.h`: at most `maxIter + 1` condition
evaluations. -/
def WAIT_OR_FAIL {α : Type} (maxIter : Nat) (cond : α → Bool × α) (a : α) : Bool × α :=
  waitEvals (maxIter + 1) cond a

/-- Instrument a condition to count its own evaluations. -/
def countingCond {α : Type} (cond : α → Bool × α) : α × Nat → Bool × (α × Nat) :=
  fun p => ((cond p.1).1, ((cond p.1).2, p.2 + 1))

/-! ### Register-level model of the driver -/

namespace Reg

/-- Register-level chip oracle: a state machine answering a block/address
read of `len` bytes and accepting a block/address write.  Each read may
change the chip state (this is what makes the stability double-reads of the
driver meaningful). -/
structure Chip (σ : Type) where
  rd : σ → Nat → Nat → Nat → List Nat × σ
  wr : σ → Nat → Nat → List Nat → σ

/-- A register access event: every read records the block, the address and
the bytes stored into the host-side buffer; every write records the block,
the address and the bytes sent. -/
inductive Ev
  | rd (block addr : Nat) (bytes : List Nat)
  | wr (block addr : Nat) (bytes : List Nat)

/-- Normalise a chip response to exactly `len` bytes, each reduced mod 256:
in `w5500_spi_io` every byte of the host buffer is filled from one
`txn` exchange returning a `uint8_t`, so a faithful oracle answers exactly
`len` bytes below 256; this normalisation makes that shape definitional. -/
def toBytes (len : Nat) (raw : List Nat) : List Nat :=
  (raw.map (fun x => x % 256) ++ List.replicate len 0).take len

/-- `w5500_read`: read `len` bytes from `(block, addr)`. -/
def w5500_read {σ : Type} (c : Chip σ) (st : σ) (block addr len : Nat) :
    List Nat × σ × List Ev :=
  let p := c.rd st block addr len
  let bytes := toBytes len p.1
  (bytes, p.2, [Ev.rd block addr bytes])

/-- `w5500_write`: write a byte buffer to `(block, addr)`. -/
def w5500_write {σ : Type} (c : Chip σ) (st : σ) (block addr : Nat) (buf : List Nat) :
    σ × List Ev :=
  let bytes := buf.map (fun x => x % 256)
  (c.wr st block addr bytes, [Ev.wr block addr bytes])

/-- `w5500_write_byte`. -/
def w5500_write_byte {σ : Type} (c : Chip σ) (st : σ) (block addr val : Nat) :
    σ × List Ev :=
  w5500_write c st block addr [val]

/-- `w5500_write_word`: the C builds `buf[2] = { val >> 8, val & 255 }` from
a `uint16_t` argument, i.e. the most-significant byte first. -/
def w5500_write_word {σ : Type} (c : Chip σ) (st : σ) (block addr val : Nat) :
    σ × List Ev :=
  let v := val % 65536
  w5500_write c st block addr [v / 256, v % 256]

/-- `w5500_read_byte`. -/
def w5500_read_byte {σ : Type} (c : Chip σ) (st : σ) (block addr : Nat) :
    Nat × σ × List Ev :=
  let p := w5500_read c st block addr 1
  (p.1.headD 0, p.2)

/-- `w5500_read_word`: the C returns `(buf[0] << 8) | buf[1]`; with
`buf[1] < 256` this is `buf[0] * 256 + buf[1]`. -/
def w5500_read_word {σ : Type} (c : Chip σ) (st : σ) (block addr : Nat) :
    Nat × σ × List Ev :=
  let p := w5500_read c st block addr 2
  (p.1.getD 0 0 * 256 + p.1.getD 1 0, p.2)

/-- `w5500_read_rx_rsr_stable`: two consecutive reads of `Sn_RX_RSR`; the
out-parameter always holds the second read, and the reads agree iff the
returned flag is true. -/
def w5500_read_rx_rsr_stable {σ : Type} (c : Chip σ) (st : σ) :
    Bool × Nat × σ × List Ev :=
  let p1 := w5500_read_word c st SOCKET0_REGISTER Sn_RX_RSR
  let tmp := p1.1
  let p2 := w5500_read_word c p1.2.1 SOCKET0_REGISTER Sn_RX_RSR
  let len := p2.1
  (len == tmp, len, p2.2.1, p1.2.2 ++ p2.2.2)

/-- `w5500_read_tx_rsr_stable`: the same double-read scheme on `Sn_TX_FSR`. -/
def w5500_read_tx_rsr_stable {σ : Type} (c : Chip σ) (st : σ) :
    Bool × Nat × σ × List Ev :=
  let p1 := w5500_read_word c st SOCKET0_REGISTER Sn_TX_FSR
  let tmp := p1.1
  let p2 := w5500_read_word c p1.2.1 SOCKET0_REGISTER Sn_TX_FSR
  let freesize := p2.1
  (freesize == tmp, freesize, p2.2.1, p1.2.2 ++ p2.2.2)

/-- `w5500_read_ir_and_clear`: read `Sn_IR`, mask to the low five bits
(`& 0x1F`, i.e. `% 32`), and write the observed value back (write-to-clear)
when it is non-zero. -/
def w5500_read_ir_and_clear {σ : Type} (c : Chip σ) (st : σ) :
    Nat × σ × List Ev :=
  let p := w5500_read_byte c st SOCKET0_REGISTER Sn_IR
  let ir := p.1 % 32
  if ir ≠ 0 then
    let q := w5500_write_byte c p.2.1 SOCKET0_REGISTER Sn_IR ir
    (ir, q.1, p.2.2 ++ q.2)
  else
    (ir, p.2.1, p.2.2)

/-- Loop body of the `w5500_rx` stability wait: the C condition is
`!w5500_read_rx_rsr_stable(s, &len)`.  The wait state carries the chip
state, the `len` out-parameter and the accumulated trace. -/
def rxStableStep {σ : Type} (c : Chip σ) :
    σ × Nat × List Ev → Bool × (σ × Nat × List Ev) :=
  fun a =>
    let p := w5500_read_rx_rsr_stable c a.1
    (!p.1, (p.2.2.1, p.2.1, a.2.2 ++ p.2.2.2))

/-- Loop body of the `w5500_tx` stability wait: the C condition is
`!w5500_read_tx_rsr_stable(s, &freesize)`. -/
def txStableStep {σ : Type} (c : Chip σ) :
    σ × Nat × List Ev → Bool × (σ × Nat × List Ev) :=
  fun a =>
    let p := w5500_read_tx_rsr_stable c a.1
    (!p.1, (p.2.2.1, p.2.1, a.2.2 ++ p.2.2.2))

/-- Loop body of the command-register waits: the C condition is
`w5500_read_byte(s, SOCKET0_REGISTER, Sn_CR)` being non-zero. -/
def crClearStep {σ : Type} (c : Chip σ) :
    σ × List Ev → Bool × (σ × List Ev) :=
  fun a =>
    let p := w5500_read_byte c a.1 SOCKET0_REGISTER Sn_CR
    (p.1 != 0, (p.2.1, a.2 ++ p.2.2))

/-- Loop body of the `w5500_tx` interrupt wait: the C condition is
`0 == (w5500_read_ir_and_clear(s, &ir) & (Sn_IR_SENDOK | Sn_IR_TIMEOUT | Sn_IR_DISCON))`.
The wait state carries the `ir` out-parameter. -/
def irWaitStep {σ : Type} (c : Chip σ) :
    σ × Nat × List Ev → Bool × (σ × Nat × List Ev) :=
  fun a =>
    let p := w5500_read_ir_and_clear c a.1
    ((p.1 &&& (Sn_IR_SENDOK ||| Sn_IR_TIMEOUT ||| Sn_IR_DISCON)) == 0,
     (p.2.1, p.1, a.2.2 ++ p.2.2))

/-- Loop body of the `w5500_init` reset wait: the C condition is
`0 != (w5500_read_byte(s, COMMON_REGISTER, MR) & MR_RST)`. -/
def mrWaitStep {σ : Type} (c : Chip σ) :
    σ × List Ev → Bool × (σ × List Ev) :=
  fun a =>
    let p := w5500_read_byte c a.1 COMMON_REGISTER MR
    ((p.1 &&& MR_RST) != 0, (p.2.1, a.2 ++ p.2.2))

/-- The `Sn_RX_RSR` stability wait of `w5500_rx`
(result: passed flag, chip state, stable `len`, trace). -/
def rxStage1 {σ : Type} (c : Chip σ) (st : σ) : Bool × σ × Nat × List Ev :=
  WAIT_OR_FAIL MAX_LOOP_ITERATIONS (rxStableStep c) (st, 0, ([] : List Ev))

/-- The `Sn_TX_FSR` stability wait of `w5500_tx`
(result: passed flag, chip state, stable `freesize`, trace). -/
def txStage1 {σ : Type} (c : Chip σ) (st : σ) : Bool × σ × Nat × List Ev :=
  WAIT_OR_FAIL MAX_LOOP_ITERATIONS (txStableStep c) (st, 0, ([] : List Ev))

/-- Result of `w5500_rx`: returned payload length, bytes stored into the
caller's buffer, final chip state, event trace. -/
structure RxResult (σ : Type) where
  ret : Nat
  out : List Nat
  st : σ
  trace : List Ev

/-- `w5500_rx` of `w5500.c`, line by line: stability wait on `Sn_RX_RSR`;
early return on wait failure or zero size; read the RX read pointer and the
2-byte length prefix at it; `payload_len = frame_len > 2 ? frame_len - 2 : 0`;
skip the frame (reporting 0) when the payload exceeds the caller's capacity,
otherwise copy the payload from `ptr + 2`; write back `ptr + frame_len`
(`uint16_t` wrap), issue `Sn_CR_RECV`, and wait for the command register to
clear, returning 0 when that wait fails. -/
def w5500_rx {σ : Type} (c : Chip σ) (buflen : Nat) (st : σ) : RxResult σ :=
  let w := rxStage1 c st
  let passed := w.1
  let st1 := w.2.1
  let len := w.2.2.1
  let tr1 := w.2.2.2
  if !passed then ⟨0, [], st1, tr1⟩
  else if len == 0 then ⟨0, [], st1, tr1⟩
  else
    let p2 := w5500_read_word c st1 SOCKET0_REGISTER Sn_RX_RD
    let ptr := p2.1
    let p3 := w5500_read c p2.2.1 SOCKET0_RX_BUFFER ptr 2
    let header := p3.1
    let frame_len := header.getD 0 0 * 256 + header.getD 1 0
    let payload_len := if 2 < frame_len then frame_len - 2 else 0
    let copy :=
      if buflen < payload_len then ((0 : Nat), ([] : List Nat), p3.2.1, ([] : List Ev))
      else
        let p4 := w5500_read c p3.2.1 SOCKET0_RX_BUFFER ((ptr + 2) % 65536) payload_len
        (payload_len, p4.1, p4.2.1, p4.2.2)
    let p5 := w5500_write_word c copy.2.2.1 SOCKET0_REGISTER Sn_RX_RD ((ptr + frame_len) % 65536)
    let p6 := w5500_write_byte c p5.1 SOCKET0_REGISTER Sn_CR Sn_CR_RECV
    let w2 := WAIT_OR_FAIL MAX_LOOP_ITERATIONS (crClearStep c) (p6.1, ([] : List Ev))
    let trace := tr1 ++ p2.2.2 ++ p3.2.2 ++ copy.2.2.2 ++ p5.2 ++ p6.2 ++ w2.2.2
    if !w2.1 then ⟨0, copy.2.1, w2.2.1, trace⟩
    else ⟨copy.1, copy.2.1, w2.2.1, trace⟩

/-- Result of `w5500_tx`: bytes reported sent, final chip state, trace. -/
structure TxResult (σ : Type) where
  ret : Nat
  st : σ
  trace : List Ev

/-- The write-out portion of `w5500_tx`: read the TX write pointer, write
the payload into the TX buffer at it, advance the pointer (`uint16_t` wrap)
and issue `Sn_CR_SEND`. -/
def txSend {σ : Type} (c : Chip σ) (buf : List Nat) (st2 : σ) : σ × List Ev :=
  let p3 := w5500_read_word c st2 SOCKET0_REGISTER Sn_TX_WR
  let ptr := p3.1
  let p4 := w5500_write c p3.2.1 SOCKET0_TX_BUFFER ptr buf
  let p5 := w5500_write_word c p4.1 SOCKET0_REGISTER Sn_TX_WR ((ptr + buf.length) % 65536)
  let p6 := w5500_write_byte c p5.1 SOCKET0_REGISTER Sn_CR Sn_CR_SEND
  (p6.1, p3.2.2 ++ p4.2 ++ p5.2 ++ p6.2)

/-- The post-send portion of `w5500_tx`: wait for the command register to
clear (returning 0 on failure, as the C does), then wait for the socket
interrupt register to show one of send-ok / timeout / disconnect.  The C
then zeroes `len` only when a timeout or disconnect flag is present in the
final `ir` value; when the interrupt wait exhausts its bound, `ir` carries
none of the three flags and `len` is returned unchanged. -/
def txCompleteWait {σ : Type} (c : Chip σ) (len : Nat) (st6 : σ) :
    Nat × σ × List Ev :=
  let w2 := WAIT_OR_FAIL MAX_LOOP_ITERATIONS (crClearStep c) (st6, ([] : List Ev))
  if !w2.1 then (0, w2.2.1, w2.2.2)
  else
    let w3 := WAIT_OR_FAIL MAX_LOOP_ITERATIONS (irWaitStep c) (w2.2.1, 0, ([] : List Ev))
    let ir := w3.2.2.1
    let len2 := if ir &&& (Sn_IR_TIMEOUT ||| Sn_IR_DISCON) != 0 then 0 else len
    (len2, w3.2.1, w2.2.2 ++ w3.2.2.2)

/-- `w5500_tx` of `w5500.c`, line by line: trivial rejection of zero-length
requests; stability wait on `Sn_TX_FSR`; abort when the stable free size is
below the requested length; abort when the socket status is closed /
closing / time-wait / close-wait; otherwise write the frame out (`txSend`)
and run the post-send waits (`txCompleteWait`). -/
def w5500_tx {σ : Type} (c : Chip σ) (buf : List Nat) (st : σ) : TxResult σ :=
  let len := buf.length
  if len == 0 then ⟨0, st, []⟩
  else
    let w := txStage1 c st
    let passed := w.1
    let st1 := w.2.1
    let freesize := w.2.2.1
    let tr1 := w.2.2.2
    if !passed then ⟨0, st1, tr1⟩
    else if freesize < len then ⟨0, st1, tr1⟩
    else
      let p2 := w5500_read_byte c st1 SOCKET0_REGISTER Sn_SR
      let sock_status := p2.1
      if sock_status == SOCK_CLOSED || sock_status == SOCK_CLOSING ||
         sock_status == SOCK_TIME_WAIT || sock_status == SOCK_CLOSE_WAIT then
        ⟨0, p2.2.1, tr1 ++ p2.2.2⟩
      else
        let send := txSend c buf p2.2.1
        let fin := txCompleteWait c len send.1
        ⟨fin.1, fin.2.1, tr1 ++ p2.2.2 ++ send.2 ++ fin.2.2⟩

/-- Result of `w5500_init`. -/
structure InitResult (σ : Type) where
  ok : Bool
  st : σ
  trace : List Ev

/-- The reset wait of `w5500_init`: write `MR_RST` to the mode register and
wait for the chip to clear it. -/
def initMrWait {σ : Type} (c : Chip σ) (st : σ) : Bool × σ × List Ev :=
  let p1 := w5500_write_byte c st COMMON_REGISTER MR MR_RST
  let w := WAIT_OR_FAIL MAX_LOOP_ITERATIONS (mrWaitStep c) (p1.1, ([] : List Ev))
  (w.1, w.2.1, p1.2 ++ w.2.2)

/-- The configuration writes of `w5500_init` between the reset wait and the
socket-open wait: PHY configuration (`(~PHYCFGR_RST) | PHYCFGR_OPMD |
PHYCFGR_OPMDC_ALLA`, where `~PHYCFGR_RST = 0x80`), 16 KB RX and TX buffer
sizes, the MAC address and MAC-filtered MACRAW mode when a MAC address is
available (plain MACRAW otherwise), and the `Sn_CR_OPEN` command. -/
def initConfig {σ : Type} (c : Chip σ) (ethaddr : Option (List Nat)) (st2 : σ) :
    σ × List Ev :=
  let p3 := w5500_write_byte c st2 COMMON_REGISTER PHYCFGR 0
  let p4 := w5500_write_byte c p3.1 COMMON_REGISTER PHYCFGR
    (0x80 ||| PHYCFGR_OPMD ||| PHYCFGR_OPMDC_ALLA)
  let p5 := w5500_write_byte c p4.1 SOCKET0_REGISTER Sn_RXBUF_SIZE 16
  let p6 := w5500_write_byte c p5.1 SOCKET0_REGISTER Sn_TXBUF_SIZE 16
  let p7 :=
    match ethaddr with
    | some mac =>
      let pa := w5500_write c p6.1 COMMON_REGISTER SHAR (mac.take 6)
      let pb := w5500_write_byte c pa.1 SOCKET0_REGISTER Sn_MR (Sn_MR_MFEN ||| Sn_MR_MACRAW)
      (pb.1, pa.2 ++ pb.2)
    | none =>
      w5500_write_byte c p6.1 SOCKET0_REGISTER Sn_MR Sn_MR_MACRAW
  let p8 := w5500_write_byte c p7.1 SOCKET0_REGISTER Sn_CR Sn_CR_OPEN
  (p8.1, p3.2 ++ p4.2 ++ p5.2 ++ p6.2 ++ p7.2 ++ p8.2)

/-- The socket-open wait of `w5500_init`: wait for `Sn_CR` to clear after
the `Sn_CR_OPEN` command. -/
def initCrWait {σ : Type} (c : Chip σ) (ethaddr : Option (List Nat)) (st2 : σ) :
    Bool × σ × List Ev :=
  let cfg := initConfig c ethaddr st2
  let w := WAIT_OR_FAIL MAX_LOOP_ITERATIONS (crClearStep c) (cfg.1, ([] : List Ev))
  (w.1, w.2.1, cfg.2 ++ w.2.2)

/-- `w5500_init` of `w5500.c`: software reset and reset wait (failure is
fatal), configuration writes, socket-open command and its wait (failure is
fatal), and finally `w5500_read_byte(s, SOCKET0_REGISTER, Sn_SR) == SOCK_MACRAW`.
The chip-select deassert `s->end(s->spi)` at the top has no register-level
effect and is not recorded in the trace. -/
def w5500_init {σ : Type} (c : Chip σ) (ethaddr : Option (List Nat)) (st : σ) :
    InitResult σ :=
  let w1 := initMrWait c st
  if !w1.1 then ⟨false, w1.2.1, w1.2.2⟩
  else
    let w2 := initCrWait c ethaddr w1.2.1
    if !w2.1 then ⟨false, w2.2.1, w1.2.2 ++ w2.2.2⟩
    else
      let p := w5500_read_byte c w2.2.1 SOCKET0_REGISTER Sn_SR
      ⟨p.1 == SOCK_MACRAW, p.2.1, w1.2.2 ++ w2.2.2 ++ p.2.2⟩

/-- `w5500_poll`: when asked to check, one read of `PHYCFGR` and the
link-up bit; otherwise false with no bus activity (the C ternary skips the
read entirely). -/
def w5500_poll {σ : Type} (c : Chip σ) (s1 : Bool) (st : σ) : Bool × σ × List Ev :=
  if s1 then
    let p := w5500_read_byte c st COMMON_REGISTER PHYCFGR
    ((p.1 &&& PHYCFGR_LNK_ON) != 0, p.2)
  else (false, st, [])

/-- lwIP error results of the adapter output path. -/
inductive LwipErr
  | ok
  | err_if

/-- `ethif_output` of `ethif.c`, driver-relevant part: call the driver
transmit with the frame payload and total length and report `ERR_IF` when
the byte count sent differs from the total length, `ERR_OK` otherwise.
(Statistics counters and the critical section have no register-level
effect.) -/
def ethif_output {σ : Type} (c : Chip σ) (p : List Nat) (st : σ) :
    LwipErr × σ × List Ev :=
  let r := w5500_tx c p st
  if r.ret != p.length then (LwipErr.err_if, r.st, r.trace)
  else (LwipErr.ok, r.st, r.trace)

/-! #### Observables of the driver operations, used to state the claims -/

/-- The RX read pointer value `w5500_rx` obtains after a successful
stability wait. -/
def rxPtr {σ : Type} (c : Chip σ) (st : σ) : Nat :=
  (w5500_read_word c (rxStage1 c st).2.1 SOCKET0_REGISTER Sn_RX_RD).1

/-- The 2-byte length prefix `w5500_rx` decodes at the RX read pointer. -/
def rxFrameLen {σ : Type} (c : Chip σ) (st : σ) : Nat :=
  let p2 := w5500_read_word c (rxStage1 c st).2.1 SOCKET0_REGISTER Sn_RX_RD
  let p3 := w5500_read c p2.2.1 SOCKET0_RX_BUFFER p2.1 2
  p3.1.getD 0 0 * 256 + p3.1.getD 1 0

/-- The payload length `w5500_rx` computes:
`frame_len > 2 ? frame_len - 2 : 0`. -/
def rxPayloadLen {σ : Type} (c : Chip σ) (st : σ) : Nat :=
  if 2 < rxFrameLen c st then rxFrameLen c st - 2 else 0

/-- The socket status byte `w5500_tx` reads after a successful stability
wait. -/
def txStatus {σ : Type} (c : Chip σ) (st : σ) : Nat :=
  (w5500_read_byte c (txStage1 c st).2.1 SOCKET0_REGISTER Sn_SR).1

/-- The chip state after `w5500_tx` has written the frame out and issued
the send command. -/
def txSendState {σ : Type} (c : Chip σ) (buf : List Nat) (st : σ) : σ :=
  (txSend c buf (w5500_read_byte c (txStage1 c st).2.1 SOCKET0_REGISTER Sn_SR).2.1).1

/-- The outcome flag of the `Sn_CR`-clear wait after the send command. -/
def txCrPassed {σ : Type} (c : Chip σ) (buf : List Nat) (st : σ) : Bool :=
  (WAIT_OR_FAIL MAX_LOOP_ITERATIONS (crClearStep c) (txSendState c buf st, ([] : List Ev))).1

/-- The interrupt wait of `w5500_tx`, run from the state left by the
`Sn_CR`-clear wait. -/
def txIrWait {σ : Type} (c : Chip σ) (buf : List Nat) (st : σ) :
    Bool × σ × Nat × List Ev :=
  WAIT_OR_FAIL MAX_LOOP_ITERATIONS (irWaitStep c)
    ((WAIT_OR_FAIL MAX_LOOP_ITERATIONS (crClearStep c)
        (txSendState c buf st, ([] : List Ev))).2.1, 0, ([] : List Ev))

/-- The final masked `Sn_IR` value left in the `ir` out-parameter when the
interrupt wait of `w5500_tx` finishes (by observing a flag or by
exhausting its bound). -/
def txFinalIr {σ : Type} (c : Chip σ) (buf : List Nat) (st : σ) : Nat :=
  (txIrWait c buf st).2.2.1

/-- The byte list a word write puts on the wire: most-significant byte
first, after the `uint16_t` reduction. -/
def wordBytes (v : Nat) : List Nat := [v % 65536 / 256, v % 65536 % 256]

end Reg

/-! ### Byte-level model of the SPI register-access protocol -/

namespace Bus

/-- The transport shim of `struct ethif`: `begin` asserts chip-select,
`ends` (C field name `end`, a Lean keyword) deasserts it, and `txn`
exchanges one byte, returning the byte clocked in. -/
structure Spi (τ : Type) where
  begin : τ → τ
  ends : τ → τ
  txn : τ → Nat → Nat × τ

/-- A bus event: chip-select assertion, one byte exchange (byte sent, byte
received), chip-select deassertion. -/
inductive BusEv
  | select
  | xfer (sent recvd : Nat)
  | deselect

/-- The byte loop of `w5500_spi_io`: exchange every buffer byte in order;
on a write the buffer is returned unchanged, on a read every buffer
position is overwritten with the byte received in its exchange (the
original buffer content is what gets clocked out either way). -/
def spiExchange {τ : Type} (sp : Spi τ) (wr : Bool) :
    List Nat → τ → List Nat × τ × List BusEv
  | [], st => ([], st, [])
  | b :: rest, st =>
    let bs := b % 256
    let p := sp.txn st bs
    let q := spiExchange sp wr rest p.2
    ((if wr then bs else p.1 % 256) :: q.1, q.2.1, BusEv.xfer bs (p.1 % 256) :: q.2.2)

/-- `w5500_spi_io` (renamed `w5500_spi_xfer` here): assert chip-select,
send the 3-byte header `{ addr >> 8, addr & 255, (block << 3) | (wr ? 4 : 0) }`
— in arithmetic form `[a / 256, a % 256, (bl * 8 + (if wr then 4 else 0)) % 256]`
for the `uint16_t` address `a` and `uint8_t` block `bl` — then exchange the
`len` payload bytes, then deassert chip-select.  The header responses are
discarded exactly as in the C (the header loop never writes back). -/
def w5500_spi_xfer {τ : Type} (sp : Spi τ) (block addr : Nat) (wr : Bool)
    (buf : List Nat) (st : τ) : List Nat × τ × List BusEv :=
  let a := addr % 65536
  let bl := block % 256
  let cmd := [a / 256, a % 256, (bl * 8 + (if wr then 4 else 0)) % 256]
  let st0 := sp.begin st
  let ph := spiExchange sp true cmd st0
  let pd := spiExchange sp wr buf ph.2.1
  let st3 := sp.ends pd.2.1
  (pd.1, st3, BusEv.select :: (ph.2.2 ++ pd.2.2) ++ [BusEv.deselect])

/-- `w5500_write` at the bus level. -/
def w5500_write {τ : Type} (sp : Spi τ) (block addr : Nat) (buf : List Nat) (st : τ) :
    List Nat × τ × List BusEv :=
  w5500_spi_xfer sp block addr true buf st

/-- `w5500_read` at the bus level; `buf` is the caller's buffer whose
current contents get clocked out while its positions are refilled. -/
def w5500_read {τ : Type} (sp : Spi τ) (block addr : Nat) (buf : List Nat) (st : τ) :
    List Nat × τ × List BusEv :=
  w5500_spi_xfer sp block addr false buf st

/-- `w5500_write_word` at the bus level: most-significant byte first. -/
def w5500_write_word {τ : Type} (sp : Spi τ) (block addr val : Nat) (st : τ) :
    List Nat × τ × List BusEv :=
  let v := val % 65536
  w5500_write sp block addr [v / 256, v % 256] st

/-- `w5500_read_word` at the bus level: a two-byte read into `{0, 0}`,
decoded as `(buf[0] << 8) | buf[1]`, i.e. `buf[0] * 256 + buf[1]`. -/
def w5500_read_word {τ : Type} (sp : Spi τ) (block addr : Nat) (st : τ) :
    Nat × τ × List BusEv :=
  let p := w5500_read sp block addr [0, 0] st
  (p.1.getD 0 0 * 256 + p.1.getD 1 0, p.2)

/-- Chip-side state of the concrete W5500 protocol model: a per-block byte
memory, the header bytes received so far in the current transaction, and
the number of payload bytes already transferred (the address
auto-increment counter). -/
structure ChipSt where
  mem : Nat → Nat → Nat
  hdr : List Nat
  cnt : Nat

/-- Chip-side semantics of one byte exchange, decoding the W5500 variable
length data mode: the first three bytes of a transaction are the offset
high byte, the offset low byte and the control byte (block in bits 7..3,
read/write in bit 2); every further byte is a payload access at the
auto-incremented address, a memory store for a write transaction and a
memory fetch answered on the bus for a read transaction. -/
def chipTxn (st : ChipSt) (b : Nat) : Nat × ChipSt :=
  match st.hdr with
  | [h, l, ctl] =>
    let block := ctl / 8
    let base := h * 256 + l
    let a := (base + st.cnt) % 65536
    if (ctl / 4) % 2 == 1 then
      (0, { st with
              mem := fun bl ad => if bl == block && ad == a then b % 256 else st.mem bl ad,
              cnt := st.cnt + 1 })
    else
      (st.mem block a % 256, { st with cnt := st.cnt + 1 })
  | hs => (0, { st with hdr := hs ++ [b % 256] })

/-- The transport shim of the concrete chip model: chip-select assertion
starts a fresh transaction (clears the header and the auto-increment
counter), deassertion keeps the memory. -/
def chipSpi : Spi ChipSt where
  begin := fun st => { st with hdr := [], cnt := 0 }
  ends := id
  txn := chipTxn

end Bus

/-! ### Concrete chip instances used to exercise the driver operations -/

namespace Reg

/-- A chip whose TX free size is stably 2000, whose socket status is open
MACRAW, whose command register always reads clear, and whose interrupt
register never raises any flag: the send never completes. -/
def irStuckChip : Chip Unit where
  rd := fun _ block addr _ =>
    (if block == SOCKET0_REGISTER && addr == Sn_TX_FSR then [7, 208]
     else if block == SOCKET0_REGISTER && addr == Sn_SR then [SOCK_MACRAW]
     else [0], ())
  wr := fun _ _ _ _ => ()

/-- Like `irStuckChip` but the interrupt register reports send-ok. -/
def irOkChip : Chip Unit where
  rd := fun _ block addr _ =>
    (if block == SOCKET0_REGISTER && addr == Sn_TX_FSR then [7, 208]
     else if block == SOCKET0_REGISTER && addr == Sn_SR then [SOCK_MACRAW]
     else if block == SOCKET0_REGISTER && addr == Sn_IR then [Sn_IR_SENDOK]
     else [0], ())
  wr := fun _ _ _ _ => ()

/-- TX free size stably 1500, socket open, send-ok raised: the boundary
case where the frame exactly fills the free space. -/
def txFsChip : Chip Unit where
  rd := fun _ block addr _ =>
    (if block == SOCKET0_REGISTER && addr == Sn_TX_FSR then [5, 220]
     else if block == SOCKET0_REGISTER && addr == Sn_SR then [SOCK_MACRAW]
     else if block == SOCKET0_REGISTER && addr == Sn_IR then [Sn_IR_SENDOK]
     else [0], ())
  wr := fun _ _ _ _ => ()

/-- TX free size stably 1: any longer frame must be rejected. -/
def txSmallChip : Chip Unit where
  rd := fun _ block addr _ =>
    (if block == SOCKET0_REGISTER && addr == Sn_TX_FSR then [0, 1]
     else [0], ())
  wr := fun _ _ _ _ => ()

/-- A pending 4-byte frame: received size 6, read pointer 16, length
prefix 6 at the cursor, payload at 18. -/
def rxFrameChip : Chip Unit where
  rd := fun _ block addr _ =>
    (if block == SOCKET0_REGISTER && addr == Sn_RX_RSR then [0, 6]
     else if block == SOCKET0_REGISTER && addr == Sn_RX_RD then [0, 16]
     else if block == SOCKET0_RX_BUFFER && addr == 16 then [0, 6]
     else if block == SOCKET0_RX_BUFFER && addr == 18 then [10, 11, 12, 13]
     else [0], ())
  wr := fun _ _ _ _ => ()

/-- A pending frame whose declared prefix is 1500: the payload cannot fit
a small caller buffer. -/
def rxBigChip : Chip Unit where
  rd := fun _ block addr _ =>
    (if block == SOCKET0_REGISTER && addr == Sn_RX_RSR then [0, 6]
     else if block == SOCKET0_REGISTER && addr == Sn_RX_RD then [0, 16]
     else if block == SOCKET0_RX_BUFFER && addr == 16 then [5, 220]
     else [0], ())
  wr := fun _ _ _ _ => ()

/-- A chip with nothing pending: every register reads zero. -/
def rxZeroChip : Chip Unit where
  rd := fun _ _ _ _ => ([0], ())
  wr := fun _ _ _ _ => ()

/-- A chip whose every read answers a fresh counter value: no two
consecutive reads ever agree, so no stability check can pass. -/
def rxUnstableChip : Chip Nat where
  rd := fun st _ _ _ => ([st], st + 1)
  wr := fun st _ _ _ => st

/-- A chip that initialises cleanly: reset bit reads clear, command
register reads clear, socket status reads MACRAW. -/
def initOkChip : Chip Unit where
  rd := fun _ block addr _ =>
    (if block == SOCKET0_REGISTER && addr == Sn_SR then [SOCK_MACRAW]
     else [0], ())
  wr := fun _ _ _ _ => ()

/-- Like `initOkChip` but the socket status reads `SOCK_UDP` (0x22)
instead of the expected MACRAW status. -/
def initBadChip : Chip Unit where
  rd := fun _ block addr _ =>
    (if block == SOCKET0_REGISTER && addr == Sn_SR then [0x22]
     else [0], ())
  wr := fun _ _ _ _ => ()

end Reg

/-! ### Properties of the bounded-wait primitive -/

/-- One-step unfolding of `waitEvals` when the condition holds (the loop
continues). -/
theorem waitEvals_succ_true {α : Type} {cond : α → Bool × α} {a : α}
    (h : (cond a).1 = true) (n : Nat) :
    waitEvals (n + 1) cond a = waitEvals n cond (cond a).2 := by
  show (let p := cond a; if p.1 then waitEvals n cond p.2 else (true, p.2)) = _
  simp [h]

/-- One-step unfolding of `waitEvals` when the condition fails (the wait
succeeds immediately). -/
theorem waitEvals_succ_false {α : Type} {cond : α → Bool × α} {a : α}
    (h : (cond a).1 = false) (n : Nat) :
    waitEvals (n + 1) cond a = (true, (cond a).2) := by
  show (let p := cond a; if p.1 then waitEvals n cond p.2 else (true, p.2)) = _
  simp [h]

/-- An invariant preserved by every condition evaluation is preserved by the
whole bounded wait. -/
theorem waitEvals_inv {α : Type} (cond : α → Bool × α) (P : α → Prop)
    (h : ∀ a, P a → P (cond a).2) :
    ∀ (n : Nat) (a : α), P a → P (waitEvals n cond a).2 := by
  intro n
  induction n with
  | zero => intro a ha; exact ha
  | succ n ih =>
    intro a ha
    cases hc : (cond a).1 with
    | true => rw [waitEvals_succ_true hc]; exact ih _ (h a ha)
    | false => rw [waitEvals_succ_false hc]; exact h a ha

/-- If the condition always evaluates to `true` (and preserves `P`), the
bounded wait fails and the invariant still holds of the final state. -/
theorem waitEvals_stuck {α : Type} (cond : α → Bool × α) (P : α → Prop)
    (h : ∀ a, P a → (cond a).1 = true ∧ P (cond a).2) :
    ∀ (n : Nat) (a : α), P a →
      (waitEvals n cond a).1 = false ∧ P (waitEvals n cond a).2 := by
  intro n
  induction n with
  | zero => intro a ha; exact ⟨rfl, ha⟩
  | succ n ih =>
    intro a ha
    rw [waitEvals_succ_true (h a ha).1]
    exact ih _ (h a ha).2

/-- When the bounded wait succeeds, the final state is the output of a
condition evaluation that returned `false`. -/
theorem waitEvals_true_inv {α : Type} (cond : α → Bool × α) :
    ∀ (n : Nat) (a : α), (waitEvals n cond a).1 = true →
      ∃ b, cond b = (false, (waitEvals n cond a).2) := by
  intro n
  induction n with
  | zero => intro a ha; simp [waitEvals] at ha
  | succ n ih =>
    intro a
    cases hc : (cond a).1 with
    | true => rw [waitEvals_succ_true hc]; exact ih _
    | false =>
      rw [waitEvals_succ_false hc]
      intro _
      exact ⟨a, by simp [Prod.ext_iff, hc]⟩

/-- When the bounded wait fails (with at least one evaluation allowed), the
final state is the output of a condition evaluation that returned `true`. -/
theorem waitEvals_false_inv {α : Type} (cond : α → Bool × α) :
    ∀ (n : Nat) (a : α), 1 ≤ n → (waitEvals n cond a).1 = false →
      ∃ b, cond b = (true, (waitEvals n cond a).2) := by
  intro n
  induction n with
  | zero => intro a h; omega
  | succ n ih =>
    intro a _
    cases hc : (cond a).1 with
    | true =>
      rw [waitEvals_succ_true hc]
      intro hf
      rcases n with _ | m
      · exact ⟨a, by simp [waitEvals, Prod.ext_iff, hc]⟩
      · exact ih _ (by omega) hf
    | false =>
      rw [waitEvals_succ_false hc]
      intro hcontra
      simp at hcontra

/-- A numeric measure that grows by at most `k` per condition evaluation
grows by at most `n * k` over a bounded wait with fuel `n`. -/
theorem waitEvals_measure {α : Type} (cond : α → Bool × α) (f : α → Nat) (k : Nat)
    (h : ∀ a, f (cond a).2 ≤ f a + k) :
    ∀ (n : Nat) (a : α), f (waitEvals n cond a).2 ≤ f a + n * k := by
  intro n
  induction n with
  | zero => intro a; simp [waitEvals]
  | succ n ih =>
    intro a
    cases hc : (cond a).1 with
    | true =>
      rw [waitEvals_succ_true hc]
      calc f (waitEvals n cond (cond a).2).2 ≤ f (cond a).2 + n * k := ih _
        _ ≤ f a + k + n * k := by have := h a; omega
        _ = f a + (n + 1) * k := by ring
    | false =>
      rw [waitEvals_succ_false hc]
      show f (cond a).2 ≤ f a + (n + 1) * k
      have := h a
      have hk : k ≤ (n + 1) * k := Nat.le_mul_of_pos_left k (by omega)
      omega

/-- A bounded wait with fuel `n` evaluates its condition at most `n` times. -/
theorem waitEvals_count {α : Type} (cond : α → Bool × α) :
    ∀ (n : Nat) (a : α) (k : Nat),
      (waitEvals n (countingCond cond) (a, k)).2.2 ≤ k + n := by
  intro n
  induction n with
  | zero => intro a k; simp [waitEvals]
  | succ n ih =>
    intro a k
    cases hc : ((countingCond cond) (a, k)).1 with
    | true =>
      rw [waitEvals_succ_true hc]
      have := ih (cond a).2 (k + 1)
      simpa [countingCond] using this.trans (by omega)
    | false =>
      rw [waitEvals_succ_false hc]
      simp [countingCond]

/-! ### Properties of the register-level driver operations -/

namespace Reg

/-! #### Shape lemmas -/

theorem toBytes_length (len : Nat) (raw : List Nat) : (toBytes len raw).length = len := by
  simp only [toBytes, List.length_take, List.length_append, List.length_map,
    List.length_replicate]
  omega

theorem toBytes_one (raw : List Nat) :
    toBytes 1 raw = [(toBytes 1 raw).headD 0] := by
  have h := toBytes_length 1 raw
  cases htb : toBytes 1 raw with
  | nil => rw [htb] at h; simp at h
  | cons x xs =>
    rw [htb] at h
    simp only [List.length_cons] at h
    have : xs = [] := List.eq_nil_of_length_eq_zero (by omega)
    subst this
    simp

theorem write_word_trace {σ : Type} (c : Chip σ) (st : σ) (block addr val : Nat) :
    (w5500_write_word c st block addr val).2 = [Ev.wr block addr (wordBytes val)] := by
  simp only [w5500_write_word, w5500_write, wordBytes, List.map]
  have h1 : val % 65536 / 256 % 256 = val % 65536 / 256 := by omega
  have h2 : val % 65536 % 256 % 256 = val % 65536 % 256 := by omega
  rw [h1, h2]

theorem rxStage1_trace {σ : Type} (c : Chip σ) (st : σ) :
    ∀ e ∈ (rxStage1 c st).2.2.2, ∃ bs, e = Ev.rd SOCKET0_REGISTER Sn_RX_RSR bs := by
  have step : ∀ a : σ × Nat × List Ev,
      (∀ e ∈ a.2.2, ∃ bs, e = Ev.rd SOCKET0_REGISTER Sn_RX_RSR bs) →
      (∀ e ∈ (rxStableStep c a).2.2.2, ∃ bs, e = Ev.rd SOCKET0_REGISTER Sn_RX_RSR bs) := by
    intro a ha e he
    simp only [rxStableStep, w5500_read_rx_rsr_stable, w5500_read_word, w5500_read,
      List.mem_append, List.mem_singleton, List.mem_cons, List.not_mem_nil, or_false] at he
    rcases he with he | he | he
    · exact ha e he
    · exact ⟨_, he⟩
    · exact ⟨_, he⟩
  exact waitEvals_inv (rxStableStep c) (fun a => ∀ e ∈ a.2.2, ∃ bs, e = Ev.rd SOCKET0_REGISTER Sn_RX_RSR bs)
    step (MAX_LOOP_ITERATIONS + 1) (st, 0, []) (by simp)

theorem txStage1_trace {σ : Type} (c : Chip σ) (st : σ) :
    ∀ e ∈ (txStage1 c st).2.2.2, ∃ bs, e = Ev.rd SOCKET0_REGISTER Sn_TX_FSR bs := by
  have step : ∀ a : σ × Nat × List Ev,
      (∀ e ∈ a.2.2, ∃ bs, e = Ev.rd SOCKET0_REGISTER Sn_TX_FSR bs) →
      (∀ e ∈ (txStableStep c a).2.2.2, ∃ bs, e = Ev.rd SOCKET0_REGISTER Sn_TX_FSR bs) := by
    intro a ha e he
    simp only [txStableStep, w5500_read_tx_rsr_stable, w5500_read_word, w5500_read,
      List.mem_append, List.mem_singleton, List.mem_cons, List.not_mem_nil, or_false] at he
    rcases he with he | he | he
    · exact ha e he
    · exact ⟨_, he⟩
    · exact ⟨_, he⟩
  exact waitEvals_inv (txStableStep c) (fun a => ∀ e ∈ a.2.2, ∃ bs, e = Ev.rd SOCKET0_REGISTER Sn_TX_FSR bs)
    step (MAX_LOOP_ITERATIONS + 1) (st, 0, []) (by simp)

theorem crWait_trace {σ : Type} (c : Chip σ) (st : σ) :
    ∀ e ∈ (WAIT_OR_FAIL MAX_LOOP_ITERATIONS (crClearStep c) (st, ([] : List Ev))).2.2,
      ∃ bs, e = Ev.rd SOCKET0_REGISTER Sn_CR bs := by
  have step : ∀ a : σ × List Ev,
      (∀ e ∈ a.2, ∃ bs, e = Ev.rd SOCKET0_REGISTER Sn_CR bs) →
      (∀ e ∈ (crClearStep c a).2.2, ∃ bs, e = Ev.rd SOCKET0_REGISTER Sn_CR bs) := by
    intro a ha e he
    simp only [crClearStep, w5500_read_byte, w5500_read,
      List.mem_append, List.mem_singleton] at he
    rcases he with he | he
    · exact ha e he
    · exact ⟨_, he⟩
  exact waitEvals_inv (crClearStep c) (fun a => ∀ e ∈ a.2, ∃ bs, e = Ev.rd SOCKET0_REGISTER Sn_CR bs)
    step (MAX_LOOP_ITERATIONS + 1) (st, []) (by simp)

/-- The interrupt-wait condition of `w5500_tx` reports "a flag was seen"
exactly when the `ir` value it records carries one of the three flags. -/
theorem irWaitStep_decision {σ : Type} (c : Chip σ) (a : σ × Nat × List Ev) :
    (irWaitStep c a).1 =
      (((irWaitStep c a).2.2.1 &&& (Sn_IR_SENDOK ||| Sn_IR_TIMEOUT ||| Sn_IR_DISCON)) == 0) := by
  simp only [irWaitStep, w5500_read_ir_and_clear]

theorem readByte_trace_len {σ : Type} (c : Chip σ) (st : σ) (block addr : Nat) :
    (w5500_read_byte c st block addr).2.2.length = 1 := by
  simp [w5500_read_byte, w5500_read]

theorem rxStage1_len {σ : Type} (c : Chip σ) (st : σ) :
    (rxStage1 c st).2.2.2.length ≤ 2002 := by
  have step : ∀ a : σ × Nat × List Ev,
      (rxStableStep c a).2.2.2.length ≤ a.2.2.length + 2 := by
    intro a
    simp [rxStableStep, w5500_read_rx_rsr_stable, w5500_read_word, w5500_read]
  have := waitEvals_measure (rxStableStep c) (fun a => a.2.2.length) 2 step
    (MAX_LOOP_ITERATIONS + 1) (st, 0, [])
  simpa [MAX_LOOP_ITERATIONS] using this

theorem txStage1_len {σ : Type} (c : Chip σ) (st : σ) :
    (txStage1 c st).2.2.2.length ≤ 2002 := by
  have step : ∀ a : σ × Nat × List Ev,
      (txStableStep c a).2.2.2.length ≤ a.2.2.length + 2 := by
    intro a
    simp [txStableStep, w5500_read_tx_rsr_stable, w5500_read_word, w5500_read]
  have := waitEvals_measure (txStableStep c) (fun a => a.2.2.length) 2 step
    (MAX_LOOP_ITERATIONS + 1) (st, 0, [])
  simpa [MAX_LOOP_ITERATIONS] using this

theorem crWait_len {σ : Type} (c : Chip σ) (st6 : σ) :
    (WAIT_OR_FAIL MAX_LOOP_ITERATIONS (crClearStep c) (st6, ([] : List Ev))).2.2.length ≤ 1001 := by
  have step : ∀ a : σ × List Ev, (crClearStep c a).2.2.length ≤ a.2.length + 1 := by
    intro a
    simp [crClearStep, w5500_read_byte, w5500_read]
  have := waitEvals_measure (crClearStep c) (fun a => a.2.length) 1 step
    (MAX_LOOP_ITERATIONS + 1) (st6, [])
  simpa [MAX_LOOP_ITERATIONS] using this

theorem irClear_len {σ : Type} (c : Chip σ) (st : σ) :
    (w5500_read_ir_and_clear c st).2.2.length ≤ 2 := by
  simp only [w5500_read_ir_and_clear]
  split
  · simp [w5500_read_byte, w5500_read, w5500_write_byte, w5500_write]
  · simp [w5500_read_byte, w5500_read]

theorem irWait_len {σ : Type} (c : Chip σ) (x : σ) :
    (WAIT_OR_FAIL MAX_LOOP_ITERATIONS (irWaitStep c) (x, 0, ([] : List Ev))).2.2.2.length ≤ 2002 := by
  have step : ∀ a : σ × Nat × List Ev,
      (irWaitStep c a).2.2.2.length ≤ a.2.2.length + 2 := by
    intro a
    have := irClear_len c a.1
    simp only [irWaitStep, List.length_append]
    omega
  have := waitEvals_measure (irWaitStep c) (fun a => a.2.2.length) 2 step
    (MAX_LOOP_ITERATIONS + 1) (x, 0, [])
  simpa [MAX_LOOP_ITERATIONS] using this

theorem txCompleteWait_len {σ : Type} (c : Chip σ) (len : Nat) (st6 : σ) :
    (txCompleteWait c len st6).2.2.length ≤ 3003 := by
  simp only [txCompleteWait]
  split
  · have := crWait_len c st6
    dsimp only
    omega
  · have h1 := crWait_len c st6
    have h2 := irWait_len c (WAIT_OR_FAIL MAX_LOOP_ITERATIONS (crClearStep c) (st6, ([] : List Ev))).2.1
    simp only [List.length_append]
    omega

theorem mrWait_len {σ : Type} (c : Chip σ) (x : σ) :
    (WAIT_OR_FAIL MAX_LOOP_ITERATIONS (mrWaitStep c) (x, ([] : List Ev))).2.2.length ≤ 1001 := by
  have step : ∀ a : σ × List Ev, (mrWaitStep c a).2.2.length ≤ a.2.length + 1 := by
    intro a
    simp [mrWaitStep, w5500_read_byte, w5500_read]
  have := waitEvals_measure (mrWaitStep c) (fun a => a.2.length) 1 step
    (MAX_LOOP_ITERATIONS + 1) (x, [])
  simpa [MAX_LOOP_ITERATIONS] using this

theorem initConfig_len {σ : Type} (c : Chip σ) (mac : Option (List Nat)) (st2 : σ) :
    (initConfig c mac st2).2.length ≤ 7 := by
  cases mac <;> simp [initConfig, w5500_write_byte, w5500_write]

theorem initMrWait_len {σ : Type} (c : Chip σ) (st : σ) :
    (initMrWait c st).2.2.length ≤ 1002 := by
  have h1 : (w5500_write_byte c st COMMON_REGISTER MR MR_RST).2.length = 1 := by
    simp [w5500_write_byte, w5500_write]
  have h2 := mrWait_len c (w5500_write_byte c st COMMON_REGISTER MR MR_RST).1
  simp only [initMrWait, List.length_append]
  omega

theorem initCrWait_len {σ : Type} (c : Chip σ) (mac : Option (List Nat)) (st2 : σ) :
    (initCrWait c mac st2).2.2.length ≤ 1008 := by
  simp only [initCrWait, List.length_append]
  have h1 := initConfig_len c mac st2
  have h2 := crWait_len c (initConfig c mac st2).1
  omega

theorem wordBytes_mod (v : Nat) : wordBytes (v % 65536) = wordBytes v := by
  simp [wordBytes, Nat.mod_mod_of_dvd]

theorem write_byte_trace {σ : Type} (c : Chip σ) (st : σ) (block addr val : Nat)
    (h : val < 256) :
    (w5500_write_byte c st block addr val).2 = [Ev.wr block addr [val]] := by
  simp [w5500_write_byte, w5500_write, Nat.mod_eq_of_lt h]

theorem rx_pass_spec {σ : Type} (c : Chip σ) (buflen : Nat) (st : σ)
    (h1 : (rxStage1 c st).1 = true) (h2 : (rxStage1 c st).2.2.1 ≠ 0) :
    ∃ pre post,
      (w5500_rx c buflen st).trace =
        pre ++ [Ev.wr SOCKET0_REGISTER Sn_RX_RD (wordBytes (rxPtr c st + rxFrameLen c st)),
                Ev.wr SOCKET0_REGISTER Sn_CR [Sn_CR_RECV]] ++ post ∧
      (∀ e ∈ pre, ∃ b a bs, e = Ev.rd b a bs) ∧
      (∀ e ∈ post, ∃ bs, e = Ev.rd SOCKET0_REGISTER Sn_CR bs) ∧
      (w5500_rx c buflen st).out.length =
        (if buflen < rxPayloadLen c st then 0 else rxPayloadLen c st) ∧
      (buflen < rxPayloadLen c st → (w5500_rx c buflen st).out = []) ∧
      ((w5500_rx c buflen st).ret = 0 ∨
        ((w5500_rx c buflen st).ret = rxPayloadLen c st ∧ ¬ buflen < rxPayloadLen c st)) ∧
      pre.length ≤ 2005 ∧ post.length ≤ 1001 := by
  have h2b : ((rxStage1 c st).2.2.1 == 0) = false := by simpa using h2
  rcases hp2 : w5500_read_word c (rxStage1 c st).2.1 SOCKET0_REGISTER Sn_RX_RD with ⟨ptr, st2, e2⟩
  rcases hp3 : w5500_read c st2 SOCKET0_RX_BUFFER ptr 2 with ⟨header, st3, e3⟩
  have hptr : rxPtr c st = ptr := by rw [rxPtr, hp2]
  have hfl : rxFrameLen c st = header.getD 0 0 * 256 + header.getD 1 0 := by
    rw [rxFrameLen]
    rw [hp2]
    simp only []
    rw [hp3]
  have he2 : e2 = [Ev.rd SOCKET0_REGISTER Sn_RX_RD
      (toBytes 2 (c.rd (rxStage1 c st).2.1 SOCKET0_REGISTER Sn_RX_RD 2).1)] := by
    have := congrArg (fun t => t.2.2) hp2
    simpa [w5500_read_word, w5500_read] using this.symm
  have he3 : e3 = [Ev.rd SOCKET0_RX_BUFFER ptr
      (toBytes 2 (c.rd st2 SOCKET0_RX_BUFFER ptr 2).1)] := by
    have := congrArg (fun t => t.2.2) hp3
    simpa [w5500_read] using this.symm
  simp only [w5500_rx, h1, h2b, Bool.not_true, Bool.false_eq_true, if_false, hp2, hp3]
  set FL := header.getD 0 0 * 256 + header.getD 1 0 with hFLdef
  set PL := if 2 < FL then FL - 2 else 0 with hPLdef
  have hpfl : rxPayloadLen c st = PL := by rw [rxPayloadLen, hfl]
  rw [hptr, hfl, hpfl]
  have htr1 := rxStage1_trace c st
  by_cases hov : buflen < PL
  · -- oversized frame: skipped, cursor still advanced
    simp only [hov, if_true]
    rcases hw5 : w5500_write_word c st3 SOCKET0_REGISTER Sn_RX_RD ((ptr + FL) % 65536)
      with ⟨st5, e5⟩
    have he5 : e5 = [Ev.wr SOCKET0_REGISTER Sn_RX_RD (wordBytes (ptr + FL))] := by
      have := congrArg (fun t => t.2) hw5
      simp only at this
      rw [← this, write_word_trace, wordBytes_mod]
    rcases hw6 : w5500_write_byte c st5 SOCKET0_REGISTER Sn_CR Sn_CR_RECV with ⟨st6, e6⟩
    have he6 : e6 = [Ev.wr SOCKET0_REGISTER Sn_CR [Sn_CR_RECV]] := by
      have := congrArg (fun t => t.2) hw6
      simp only at this
      rw [← this, write_byte_trace]
      decide
    rcases hw2 : WAIT_OR_FAIL MAX_LOOP_ITERATIONS (crClearStep c) (st6, ([] : List Ev))
      with ⟨passed2, st7, tr7⟩
    have htr7 : ∀ e ∈ tr7, ∃ bs, e = Ev.rd SOCKET0_REGISTER Sn_CR bs := by
      have := crWait_trace c st6
      rw [hw2] at this
      exact this
    refine ⟨(rxStage1 c st).2.2.2 ++ e2 ++ e3, tr7, ?_, ?_, htr7, ?_, ?_, ?_, ?_, ?_⟩
    · cases passed2 <;>
        simp [he5, he6, List.append_assoc]
    · intro e he
      simp only [List.append_assoc, List.mem_append] at he
      rcases he with he | he | he
      · rcases htr1 e he with ⟨bs, rfl⟩; exact ⟨_, _, _, rfl⟩
      · rw [he2] at he; simp at he; subst he; exact ⟨_, _, _, rfl⟩
      · rw [he3] at he; simp at he; subst he; exact ⟨_, _, _, rfl⟩
    · cases passed2 <;> simp [hov]
    · intro _; cases passed2 <;> simp
    · cases passed2 <;> simp
    · have := rxStage1_len c st
      simp only [he2, he3, List.length_append, List.length_singleton]
      omega
    · have := crWait_len c st6
      rw [hw2] at this
      simpa using this
  · -- frame fits: payload copied
    simp only [hov, if_false]
    rcases hp4 : w5500_read c st3 SOCKET0_RX_BUFFER ((ptr + 2) % 65536) PL
      with ⟨out4, st4, e4⟩
    have hout4 : out4.length = PL := by
      have := congrArg (fun t => t.1.length) hp4
      simp only at this
      rw [← this]
      simp [w5500_read, toBytes_length]
    have he4 : e4 = [Ev.rd SOCKET0_RX_BUFFER ((ptr + 2) % 65536)
        (toBytes PL (c.rd st3 SOCKET0_RX_BUFFER ((ptr + 2) % 65536) PL).1)] := by
      have := congrArg (fun t => t.2.2) hp4
      simpa [w5500_read] using this.symm
    rcases hw5 : w5500_write_word c st4 SOCKET0_REGISTER Sn_RX_RD ((ptr + FL) % 65536)
      with ⟨st5, e5⟩
    have he5 : e5 = [Ev.wr SOCKET0_REGISTER Sn_RX_RD (wordBytes (ptr + FL))] := by
      have := congrArg (fun t => t.2) hw5
      simp only at this
      rw [← this, write_word_trace, wordBytes_mod]
    rcases hw6 : w5500_write_byte c st5 SOCKET0_REGISTER Sn_CR Sn_CR_RECV with ⟨st6, e6⟩
    have he6 : e6 = [Ev.wr SOCKET0_REGISTER Sn_CR [Sn_CR_RECV]] := by
      have := congrArg (fun t => t.2) hw6
      simp only at this
      rw [← this, write_byte_trace]
      decide
    rcases hw2 : WAIT_OR_FAIL MAX_LOOP_ITERATIONS (crClearStep c) (st6, ([] : List Ev))
      with ⟨passed2, st7, tr7⟩
    have htr7 : ∀ e ∈ tr7, ∃ bs, e = Ev.rd SOCKET0_REGISTER Sn_CR bs := by
      have := crWait_trace c st6
      rw [hw2] at this
      exact this
    refine ⟨(rxStage1 c st).2.2.2 ++ e2 ++ e3 ++ e4, tr7, ?_, ?_, htr7, ?_, ?_, ?_, ?_, ?_⟩
    · cases passed2 <;>
        simp [he5, he6, List.append_assoc]
    · intro e he
      simp only [List.append_assoc, List.mem_append] at he
      rcases he with he | he | he | he
      · rcases htr1 e he with ⟨bs, rfl⟩; exact ⟨_, _, _, rfl⟩
      · rw [he2] at he; simp at he; subst he; exact ⟨_, _, _, rfl⟩
      · rw [he3] at he; simp at he; subst he; exact ⟨_, _, _, rfl⟩
      · rw [he4] at he; simp at he; subst he; exact ⟨_, _, _, rfl⟩
    · cases passed2 <;> simp [hov, hout4]
    · exact fun hcontra => hcontra.elim
    · cases passed2
      · simp
      · simp [hov]
    · have := rxStage1_len c st
      simp only [he2, he3, he4, List.length_append, List.length_singleton]
      omega
    · have := crWait_len c st6
      rw [hw2] at this
      simpa using this

theorem txSend_trace {σ : Type} (c : Chip σ) (buf : List Nat) (st2 : σ) :
    ∃ pre, (txSend c buf st2).2 = pre ++ [Ev.wr SOCKET0_REGISTER Sn_CR [Sn_CR_SEND]] ∧
      pre.length = 3 := by
  refine ⟨(w5500_read_word c st2 SOCKET0_REGISTER Sn_TX_WR).2.2 ++
    [Ev.wr SOCKET0_TX_BUFFER (w5500_read_word c st2 SOCKET0_REGISTER Sn_TX_WR).1
        (buf.map (fun x => x % 256))] ++
    [Ev.wr SOCKET0_REGISTER Sn_TX_WR
        (wordBytes ((w5500_read_word c st2 SOCKET0_REGISTER Sn_TX_WR).1 + buf.length))], ?_, ?_⟩
  · simp [txSend, w5500_write_byte, w5500_write, write_word_trace, wordBytes_mod,
      List.append_assoc, Sn_CR_SEND]
  · simp [w5500_read_word, w5500_read]

theorem tx_pass_spec {σ : Type} (c : Chip σ) (buf : List Nat) (st : σ)
    (h0 : buf.length ≠ 0)
    (h1 : (txStage1 c st).1 = true)
    (h2 : ¬ ((txStage1 c st).2.2.1 < buf.length))
    (h3 : ¬ (txStatus c st = SOCK_CLOSED ∨ txStatus c st = SOCK_CLOSING ∨
             txStatus c st = SOCK_TIME_WAIT ∨ txStatus c st = SOCK_CLOSE_WAIT)) :
    (w5500_tx c buf st).ret = (txCompleteWait c buf.length (txSendState c buf st)).1 ∧
    ∃ pre post,
      (w5500_tx c buf st).trace = pre ++ [Ev.wr SOCKET0_REGISTER Sn_CR [Sn_CR_SEND]] ++ post ∧
      pre.length ≤ 2006 ∧ post.length ≤ 3003 := by
  have h0b : (buf.length == 0) = false := by simpa using h0
  have h3b : ((txStatus c st == SOCK_CLOSED) || (txStatus c st == SOCK_CLOSING) ||
      (txStatus c st == SOCK_TIME_WAIT) || (txStatus c st == SOCK_CLOSE_WAIT)) = false := by
    push_neg at h3
    simp [h3.1, h3.2.1, h3.2.2.1, h3.2.2.2]
  rcases hsr : w5500_read_byte c (txStage1 c st).2.1 SOCKET0_REGISTER Sn_SR
    with ⟨sstat, st2, e2⟩
  have hstat : txStatus c st = sstat := by rw [txStatus, hsr]
  rw [hstat] at h3b
  rcases hsend : txSend c buf st2 with ⟨st6, esend⟩
  have hst6 : txSendState c buf st = st6 := by
    rw [txSendState, hsr]
    simp only []
    rw [hsend]
  simp only [w5500_tx, h0b, Bool.false_eq_true, if_false, h1, Bool.not_true, hsr, h3b, hsend]
  rw [if_neg h2]
  simp only []
  rw [hst6]
  refine ⟨rfl, ?_⟩
  rcases txSend_trace c buf st2 with ⟨spre, hsp, hsplen⟩
  have hesend : esend = spre ++ [Ev.wr SOCKET0_REGISTER Sn_CR [Sn_CR_SEND]] := by
    have := congrArg (fun t => t.2) hsend
    simp only at this
    rw [← this, hsp]
  have he2len : e2.length = 1 := by
    have := readByte_trace_len c (txStage1 c st).2.1 SOCKET0_REGISTER Sn_SR
    rw [hsr] at this
    simpa using this
  refine ⟨(txStage1 c st).2.2.2 ++ e2 ++ spre,
    (txCompleteWait c buf.length st6).2.2, ?_, ?_, ?_⟩
  · rw [hesend]
    simp [List.append_assoc]
  · have := txStage1_len c st
    simp only [List.length_append, hsplen, he2len]
    omega
  · exact txCompleteWait_len c buf.length st6

theorem txCompleteWait_ret {σ : Type} (c : Chip σ) (len : Nat) (st6 : σ)
    (h : (WAIT_OR_FAIL MAX_LOOP_ITERATIONS (crClearStep c) (st6, ([] : List Ev))).1 = true) :
    (txCompleteWait c len st6).1 =
      (if (WAIT_OR_FAIL MAX_LOOP_ITERATIONS (irWaitStep c)
            ((WAIT_OR_FAIL MAX_LOOP_ITERATIONS (crClearStep c) (st6, ([] : List Ev))).2.1,
             0, ([] : List Ev))).2.2.1 &&& (Sn_IR_TIMEOUT ||| Sn_IR_DISCON) = 0
       then len else 0) := by
  simp only [txCompleteWait, h, Bool.not_true, Bool.false_eq_true, if_false]
  by_cases hx : (WAIT_OR_FAIL MAX_LOOP_ITERATIONS (irWaitStep c)
      ((WAIT_OR_FAIL MAX_LOOP_ITERATIONS (crClearStep c) (st6, ([] : List Ev))).2.1,
       0, ([] : List Ev))).2.2.1 &&& (Sn_IR_TIMEOUT ||| Sn_IR_DISCON) = 0
  · simp [hx]
  · have hb : ((WAIT_OR_FAIL MAX_LOOP_ITERATIONS (irWaitStep c)
        ((WAIT_OR_FAIL MAX_LOOP_ITERATIONS (crClearStep c) (st6, ([] : List Ev))).2.1,
         0, ([] : List Ev))).2.2.1 &&& (Sn_IR_TIMEOUT ||| Sn_IR_DISCON) != 0) = true := by
      simpa using hx
    rw [if_neg hx, hb]
    simp


theorem rx_trace_len {σ : Type} (c : Chip σ) (buflen : Nat) (st : σ) :
    (w5500_rx c buflen st).trace.length ≤ 3008 := by
  cases h1 : (rxStage1 c st).1 with
  | false =>
    simp only [w5500_rx, h1, Bool.not_false, if_true]
    exact le_trans (rxStage1_len c st) (by norm_num)
  | true =>
    by_cases h2 : (rxStage1 c st).2.2.1 = 0
    · simp only [w5500_rx, h1, h2, Bool.not_true, Bool.false_eq_true, if_false,
        beq_self_eq_true, if_true]
      exact le_trans (rxStage1_len c st) (by norm_num)
    · obtain ⟨pre, post, htr, -, -, -, -, -, hpre, hpost⟩ := rx_pass_spec c buflen st h1 h2
      rw [htr]
      simp only [List.length_append, List.length_cons, List.length_nil]
      omega

theorem tx_trace_len {σ : Type} (c : Chip σ) (buf : List Nat) (st : σ) :
    (w5500_tx c buf st).trace.length ≤ 5010 := by
  cases h0 : (buf.length == 0) with
  | true =>
    simp only [w5500_tx, h0, if_true]
    simp
  | false =>
    have h0p : buf.length ≠ 0 := by simpa using h0
    cases h1 : (txStage1 c st).1 with
    | false =>
      simp only [w5500_tx, h0, Bool.false_eq_true, if_false, h1, Bool.not_false, if_true]
      exact le_trans (txStage1_len c st) (by norm_num)
    | true =>
      by_cases h2 : (txStage1 c st).2.2.1 < buf.length
      · simp only [w5500_tx, h0, Bool.false_eq_true, if_false, h1, Bool.not_true]
        rw [if_pos h2]
        exact le_trans (txStage1_len c st) (by norm_num)
      · cases hb : ((w5500_read_byte c (txStage1 c st).2.1 SOCKET0_REGISTER Sn_SR).1 == SOCK_CLOSED ||
            (w5500_read_byte c (txStage1 c st).2.1 SOCKET0_REGISTER Sn_SR).1 == SOCK_CLOSING ||
            (w5500_read_byte c (txStage1 c st).2.1 SOCKET0_REGISTER Sn_SR).1 == SOCK_TIME_WAIT ||
            (w5500_read_byte c (txStage1 c st).2.1 SOCKET0_REGISTER Sn_SR).1 == SOCK_CLOSE_WAIT) with
        | true =>
          simp only [w5500_tx, h0, Bool.false_eq_true, if_false, h1, Bool.not_true]
          rw [if_neg h2, if_pos hb]
          have ht := txStage1_len c st
          have he := readByte_trace_len c (txStage1 c st).2.1 SOCKET0_REGISTER Sn_SR
          simp only [List.length_append]
          omega
        | false =>
          have h3 : ¬ (txStatus c st = SOCK_CLOSED ∨ txStatus c st = SOCK_CLOSING ∨
              txStatus c st = SOCK_TIME_WAIT ∨ txStatus c st = SOCK_CLOSE_WAIT) := by
            simp only [Bool.or_eq_false_iff, beq_eq_false_iff_ne, ne_eq] at hb
            rw [txStatus]
            push_neg
            exact ⟨hb.1.1.1, hb.1.1.2, hb.1.2, hb.2⟩
          obtain ⟨-, pre, post, htr, hpre, hpost⟩ := tx_pass_spec c buf st h0p h1 h2 h3
          rw [htr]
          simp only [List.length_append, List.length_cons, List.length_nil]
          omega

theorem init_trace_len {σ : Type} (c : Chip σ) (mac : Option (List Nat)) (st : σ) :
    (w5500_init c mac st).trace.length ≤ 2011 := by
  have hmr := initMrWait_len c st
  cases h1 : (initMrWait c st).1 with
  | false =>
    simp only [w5500_init, h1, Bool.not_false, if_true]
    omega
  | true =>
    have hcr := initCrWait_len c mac (initMrWait c st).2.1
    cases h2 : (initCrWait c mac (initMrWait c st).2.1).1 with
    | false =>
      simp only [w5500_init, h1, h2, Bool.not_true, Bool.false_eq_true, if_false,
        Bool.not_false, if_true, List.length_append]
      omega
    | true =>
      simp only [w5500_init, h1, h2, Bool.not_true, Bool.false_eq_true, if_false,
        List.length_append]
      have he := readByte_trace_len c (initCrWait c mac (initMrWait c st).2.1).2.1
        SOCKET0_REGISTER Sn_SR
      omega

theorem poll_trace_len {σ : Type} (c : Chip σ) (s1 : Bool) (st : σ) :
    (w5500_poll c s1 st).2.2.length ≤ 1 := by
  cases s1 <;> simp [w5500_poll, w5500_read_byte, w5500_read]

/-- The two guard paths of `w5500_rx` (stability-wait failure, or stable
size zero): zero result, empty output, and a trace containing nothing but
`Sn_RX_RSR` reads. -/
theorem rx_guard_spec {σ : Type} (c : Chip σ) (buflen : Nat) (st : σ)
    (h : ((rxStage1 c st).1 = true ∧ (rxStage1 c st).2.2.1 = 0) ∨ (rxStage1 c st).1 = false) :
    (w5500_rx c buflen st).ret = 0 ∧ (w5500_rx c buflen st).out = [] ∧
      ∀ e ∈ (w5500_rx c buflen st).trace, ∃ bs, e = Ev.rd SOCKET0_REGISTER Sn_RX_RSR bs := by
  rcases h with ⟨h1, h2⟩ | h1
  · simp only [w5500_rx, h1, h2, Bool.not_true, Bool.false_eq_true, if_false, beq_self_eq_true,
      if_true]
    exact ⟨trivial, trivial, rxStage1_trace c st⟩
  · simp only [w5500_rx, h1, Bool.not_false, if_true]
    exact ⟨trivial, trivial, rxStage1_trace c st⟩

/-- C2: for every pending frame whose stable received size is non-zero,
`w5500_rx` writes the RX read pointer back advanced by exactly the frame's
declared 2-byte prefix (wrap-around modulo 65536, most-significant byte
first), commits that single write before the receive-complete
acknowledgment wait (everything before it is a read, everything after it
except the `Sn_CR_RECV` command is an `Sn_CR` read, so a failing wait
cannot roll it back), and computes the payload as `prefix - 2` for
`prefix ≥ 2` (delivering that many bytes when they fit the caller's
buffer) and as zero for `prefix < 2`. -/
theorem c2_rx_cursor_advance {σ : Type} (c : Chip σ) (buflen : Nat) (st : σ)
    (h1 : (rxStage1 c st).1 = true) (h2 : (rxStage1 c st).2.2.1 ≠ 0) :
    ∃ pre post,
      (w5500_rx c buflen st).trace =
        pre ++ [Ev.wr SOCKET0_REGISTER Sn_RX_RD (wordBytes (rxPtr c st + rxFrameLen c st)),
                Ev.wr SOCKET0_REGISTER Sn_CR [Sn_CR_RECV]] ++ post ∧
      (∀ e ∈ pre, ∃ b a bs, e = Ev.rd b a bs) ∧
      (∀ e ∈ post, ∃ bs, e = Ev.rd SOCKET0_REGISTER Sn_CR bs) ∧
      (2 ≤ rxFrameLen c st → rxPayloadLen c st = rxFrameLen c st - 2) ∧
      (rxFrameLen c st < 2 → rxPayloadLen c st = 0 ∧ (w5500_rx c buflen st).out = []) ∧
      (rxPayloadLen c st ≤ buflen → (w5500_rx c buflen st).out.length = rxPayloadLen c st) := by
  obtain ⟨pre, post, htr, hpre, hpost, hlen, hov, hret, -, -⟩ := rx_pass_spec c buflen st h1 h2
  refine ⟨pre, post, htr, hpre, hpost, ?_, ?_, ?_⟩
  · intro hge
    rw [rxPayloadLen]
    split <;> omega
  · intro hlt
    have hp0 : rxPayloadLen c st = 0 := by rw [rxPayloadLen]; split <;> omega
    refine ⟨hp0, ?_⟩
    have hz : (w5500_rx c buflen st).out.length = 0 := by
      rw [hlen, hp0]
      simp
    exact List.eq_nil_of_length_eq_zero hz
  · intro hfit
    rw [hlen, if_neg (by omega)]

/-- C2 witness: a concrete pending frame (prefix 6 at cursor 16, 4-byte
payload) exercises `c2_rx_cursor_advance`. -/
theorem c2_rx_cursor_advance_witness :
    (rxStage1 rxFrameChip ()).1 = true ∧ (rxStage1 rxFrameChip ()).2.2.1 ≠ 0 ∧
    (∃ pre post,
      (w5500_rx rxFrameChip 64 ()).trace =
        pre ++ [Ev.wr SOCKET0_REGISTER Sn_RX_RD
                  (wordBytes (rxPtr rxFrameChip () + rxFrameLen rxFrameChip ())),
                Ev.wr SOCKET0_REGISTER Sn_CR [Sn_CR_RECV]] ++ post ∧
      (∀ e ∈ pre, ∃ b a bs, e = Ev.rd b a bs) ∧
      (∀ e ∈ post, ∃ bs, e = Ev.rd SOCKET0_REGISTER Sn_CR bs) ∧
      (2 ≤ rxFrameLen rxFrameChip () → rxPayloadLen rxFrameChip () = rxFrameLen rxFrameChip () - 2) ∧
      (rxFrameLen rxFrameChip () < 2 → rxPayloadLen rxFrameChip () = 0 ∧ (w5500_rx rxFrameChip 64 ()).out = []) ∧
      (rxPayloadLen rxFrameChip () ≤ 64 → (w5500_rx rxFrameChip 64 ()).out.length = rxPayloadLen rxFrameChip ())) :=
  ⟨rfl, by decide, c2_rx_cursor_advance rxFrameChip 64 () rfl (by decide)⟩

/-- C3: `w5500_rx` never reports a payload length above the caller's
capacity and never stores more than that many bytes in the caller's
buffer; when the computed payload exceeds the capacity the frame is
skipped — zero reported, nothing delivered — while the cursor advance is
still performed. -/
theorem c3_rx_capacity {σ : Type} (c : Chip σ) (buflen : Nat) (st : σ) :
    ((w5500_rx c buflen st).ret ≤ buflen ∧ (w5500_rx c buflen st).out.length ≤ buflen) ∧
    ((rxStage1 c st).1 = true → (rxStage1 c st).2.2.1 ≠ 0 → buflen < rxPayloadLen c st →
      (w5500_rx c buflen st).ret = 0 ∧ (w5500_rx c buflen st).out = [] ∧
      ∃ pre post, (w5500_rx c buflen st).trace =
        pre ++ [Ev.wr SOCKET0_REGISTER Sn_RX_RD (wordBytes (rxPtr c st + rxFrameLen c st)),
                Ev.wr SOCKET0_REGISTER Sn_CR [Sn_CR_RECV]] ++ post) := by
  constructor
  · cases h1 : (rxStage1 c st).1 with
    | false =>
      obtain ⟨hr, ho, -⟩ := rx_guard_spec c buflen st (Or.inr h1)
      rw [hr, ho]
      simp
    | true =>
      by_cases h2 : (rxStage1 c st).2.2.1 = 0
      · obtain ⟨hr, ho, -⟩ := rx_guard_spec c buflen st (Or.inl ⟨h1, h2⟩)
        rw [hr, ho]
        simp
      · obtain ⟨pre, post, -, -, -, hlen, -, hret, -, -⟩ := rx_pass_spec c buflen st h1 h2
        constructor
        · rcases hret with hr | ⟨hr, hnb⟩
          · rw [hr]; omega
          · rw [hr]; omega
        · rw [hlen]
          split <;> omega
  · intro h1 h2 hov
    obtain ⟨pre, post, htr, -, -, -, hout, hret, -, -⟩ := rx_pass_spec c buflen st h1 h2
    refine ⟨?_, hout hov, pre, post, htr⟩
    rcases hret with hr | ⟨-, hnb⟩
    · exact hr
    · exact absurd hov hnb

/-- C3 witness: a frame with declared prefix 1500 against a 10-byte caller
buffer exercises the oversize path of `c3_rx_capacity`. -/
theorem c3_rx_capacity_witness :
    (w5500_rx rxBigChip 10 ()).ret = 0 ∧ (w5500_rx rxBigChip 10 ()).out = [] ∧
    ∃ pre post, (w5500_rx rxBigChip 10 ()).trace =
      pre ++ [Ev.wr SOCKET0_REGISTER Sn_RX_RD
                (wordBytes (rxPtr rxBigChip () + rxFrameLen rxBigChip ())),
              Ev.wr SOCKET0_REGISTER Sn_CR [Sn_CR_RECV]] ++ post :=
  (c3_rx_capacity rxBigChip 10 ()).2 rfl (by decide) (by decide)

/-- C6: when the stable received size is zero, and likewise when the two
size reads disagree on every attempt until the bounded wait gives up,
`w5500_rx` returns zero and its whole trace consists of `Sn_RX_RSR` reads:
no RX read-pointer read, no RX buffer read, no pointer write-back and no
receive command. -/
theorem c6_rx_ring_untouched {σ : Type} (c : Chip σ) (buflen : Nat) (st : σ)
    (h : ((rxStage1 c st).1 = true ∧ (rxStage1 c st).2.2.1 = 0) ∨ (rxStage1 c st).1 = false) :
    (w5500_rx c buflen st).ret = 0 ∧ (w5500_rx c buflen st).out = [] ∧
      ∀ e ∈ (w5500_rx c buflen st).trace, ∃ bs, e = Ev.rd SOCKET0_REGISTER Sn_RX_RSR bs :=
  rx_guard_spec c buflen st h

/-- The counter chip never satisfies any stability check. -/
theorem rxUnstable_fails (st : Nat) : (rxStage1 rxUnstableChip st).1 = false := by
  have hstep : ∀ a : Nat × Nat × List Ev,
      (rxStableStep rxUnstableChip a).1 = true := by
    intro a
    simp only [rxStableStep, w5500_read_rx_rsr_stable, w5500_read_word, w5500_read,
      rxUnstableChip, toBytes]
    simp only [List.map, List.replicate, List.take, List.cons_append, List.nil_append]
    simp only [List.getD, List.get?]
    have : ¬ ((a.1 + 1) % 256 * 256 + 0 = a.1 % 256 * 256 + 0) := by omega
    simpa using this
  have := waitEvals_stuck (rxStableStep rxUnstableChip) (fun _ : Nat × Nat × List Ev => True)
    (fun a _ => ⟨hstep a, trivial⟩) (MAX_LOOP_ITERATIONS + 1) (st, 0, []) trivial
  exact this.1

/-- C6 witness: the zero-size chip and the never-stable counter chip both
exercise `c6_rx_ring_untouched`. -/
theorem c6_rx_ring_untouched_witness :
    ((w5500_rx rxZeroChip 64 ()).ret = 0 ∧ (w5500_rx rxZeroChip 64 ()).out = [] ∧
      ∀ e ∈ (w5500_rx rxZeroChip 64 ()).trace, ∃ bs, e = Ev.rd SOCKET0_REGISTER Sn_RX_RSR bs) ∧
    ((w5500_rx rxUnstableChip 64 0).ret = 0 ∧ (w5500_rx rxUnstableChip 64 0).out = [] ∧
      ∀ e ∈ (w5500_rx rxUnstableChip 64 0).trace, ∃ bs, e = Ev.rd SOCKET0_REGISTER Sn_RX_RSR bs) :=
  ⟨c6_rx_ring_untouched rxZeroChip 64 () (Or.inl ⟨rfl, rfl⟩),
   c6_rx_ring_untouched rxUnstableChip 64 0 (Or.inr (rxUnstable_fails 0))⟩

/-- C9: a zero-length output request succeeds vacuously: the driver
transmit returns zero bytes for it, the adapter compares that against the
total length zero, and reports `ERR_OK` without touching the chip. -/
theorem c9_output_zero_length {σ : Type} (c : Chip σ) (st : σ) :
    (w5500_tx c [] st).ret = 0 ∧ ethif_output c [] st = (LwipErr.ok, st, []) :=
  ⟨rfl, rfl⟩

/-- When the interrupt wait of `w5500_tx` ends by seeing a flag, the final
`ir` value carries one of send-ok / timeout / disconnect. -/
theorem txIrWait_true_flags {σ : Type} (c : Chip σ) (buf : List Nat) (st : σ)
    (h : (txIrWait c buf st).1 = true) :
    txFinalIr c buf st &&& (Sn_IR_SENDOK ||| Sn_IR_TIMEOUT ||| Sn_IR_DISCON) ≠ 0 := by
  obtain ⟨b, hb⟩ := waitEvals_true_inv (irWaitStep c) (MAX_LOOP_ITERATIONS + 1)
    ((WAIT_OR_FAIL MAX_LOOP_ITERATIONS (crClearStep c)
        (txSendState c buf st, ([] : List Ev))).2.1, 0, ([] : List Ev)) h
  have hd := irWaitStep_decision c b
  rw [hb] at hd
  simp only at hd
  intro hcontra
  rw [show txFinalIr c buf st =
      (waitEvals (MAX_LOOP_ITERATIONS + 1) (irWaitStep c)
        ((WAIT_OR_FAIL MAX_LOOP_ITERATIONS (crClearStep c)
            (txSendState c buf st, ([] : List Ev))).2.1, 0, ([] : List Ev))).2.2.1 from rfl]
    at hcontra
  rw [hcontra] at hd
  simp at hd

/-- When the interrupt wait of `w5500_tx` exhausts its bound, the final
`ir` value carries none of the three flags. -/
theorem txIrWait_false_flags {σ : Type} (c : Chip σ) (buf : List Nat) (st : σ)
    (h : (txIrWait c buf st).1 = false) :
    txFinalIr c buf st &&& (Sn_IR_SENDOK ||| Sn_IR_TIMEOUT ||| Sn_IR_DISCON) = 0 := by
  obtain ⟨b, hb⟩ := waitEvals_false_inv (irWaitStep c) (MAX_LOOP_ITERATIONS + 1)
    ((WAIT_OR_FAIL MAX_LOOP_ITERATIONS (crClearStep c)
        (txSendState c buf st, ([] : List Ev))).2.1, 0, ([] : List Ev)) (by omega) h
  have hd := irWaitStep_decision c b
  rw [hb] at hd
  simp only at hd
  have := hd.symm
  rw [show txFinalIr c buf st =
      (waitEvals (MAX_LOOP_ITERATIONS + 1) (irWaitStep c)
        ((WAIT_OR_FAIL MAX_LOOP_ITERATIONS (crClearStep c)
            (txSendState c buf st, ([] : List Ev))).2.1, 0, ([] : List Ev))).2.2.1 from rfl]
  simpa using this

/-- C1 (amended): for every transmit that reaches the post-send interrupt
wait, `w5500_tx` reports the full requested length exactly when the final
observed (masked) `Sn_IR` value carries neither the timeout flag (0x08)
nor the disconnect flag (0x02) — that is, when send-ok alone was observed
before the bounded-wait cap, and also when the wait exhausts its bound
with none of the three flags ever appearing (the code only logs that
case); it reports zero exactly when a timeout or disconnect flag was
observed. -/
theorem c1_tx_send_result {σ : Type} (c : Chip σ) (buf : List Nat) (st : σ)
    (h0 : buf.length ≠ 0)
    (h1 : (txStage1 c st).1 = true)
    (h2 : ¬ ((txStage1 c st).2.2.1 < buf.length))
    (h3 : ¬ (txStatus c st = SOCK_CLOSED ∨ txStatus c st = SOCK_CLOSING ∨
             txStatus c st = SOCK_TIME_WAIT ∨ txStatus c st = SOCK_CLOSE_WAIT))
    (h4 : txCrPassed c buf st = true) :
    ((w5500_tx c buf st).ret =
      if txFinalIr c buf st &&& (Sn_IR_TIMEOUT ||| Sn_IR_DISCON) = 0 then buf.length else 0) ∧
    ((w5500_tx c buf st).ret = 0 ↔
      txFinalIr c buf st &&& (Sn_IR_TIMEOUT ||| Sn_IR_DISCON) ≠ 0) ∧
    ((txIrWait c buf st).1 = true →
      txFinalIr c buf st &&& (Sn_IR_SENDOK ||| Sn_IR_TIMEOUT ||| Sn_IR_DISCON) ≠ 0) ∧
    ((txIrWait c buf st).1 = false →
      txFinalIr c buf st &&& (Sn_IR_SENDOK ||| Sn_IR_TIMEOUT ||| Sn_IR_DISCON) = 0) := by
  obtain ⟨hret, -⟩ := tx_pass_spec c buf st h0 h1 h2 h3
  have heq : (w5500_tx c buf st).ret =
      (if txFinalIr c buf st &&& (Sn_IR_TIMEOUT ||| Sn_IR_DISCON) = 0 then buf.length else 0) := by
    rw [hret, txCompleteWait_ret c buf.length (txSendState c buf st) h4]
    simp only [txFinalIr, txIrWait]
  refine ⟨heq, ?_, txIrWait_true_flags c buf st, txIrWait_false_flags c buf st⟩
  rw [heq]
  by_cases hx : txFinalIr c buf st &&& (Sn_IR_TIMEOUT ||| Sn_IR_DISCON) = 0
  · rw [if_pos hx]
    simp [h0, hx]
  · rw [if_neg hx]
    simp [hx]

/-- C1 witness: the send-ok chip exercises `c1_tx_send_result`; a 3-byte
frame is reported fully sent. -/
theorem c1_tx_send_result_witness :
    (w5500_tx irOkChip [171, 5, 9] ()).ret = 3 ∧
    txFinalIr irOkChip [171, 5, 9] () = Sn_IR_SENDOK := by
  have h := c1_tx_send_result irOkChip [171, 5, 9] () (by decide) rfl (by decide)
    (by decide) (by decide)
  have hir : txFinalIr irOkChip [171, 5, 9] () = Sn_IR_SENDOK := by decide
  refine ⟨?_, hir⟩
  rw [h.1, hir]
  decide

/-- C1 counterexample: on a chip whose interrupt register never reports
any flag, the post-send wait exhausts its bound with nothing observed —
and `w5500_tx` returns the full requested length (1), not the zero the
claim demands for that case. -/
theorem c1_tx_wait_exhausted_counterexample :
    (txIrWait irStuckChip [171] ()).1 = false ∧
    txFinalIr irStuckChip [171] () &&& (Sn_IR_SENDOK ||| Sn_IR_TIMEOUT ||| Sn_IR_DISCON) = 0 ∧
    (w5500_tx irStuckChip [171] ()).ret = 1 := by
  have hstep : ∀ a : Unit × Nat × List Ev,
      a.2.1 = 0 → (irWaitStep irStuckChip a).1 = true ∧ (irWaitStep irStuckChip a).2.2.1 = 0 := by
    intro a _
    obtain ⟨⟨⟩, ir, tr⟩ := a
    constructor
    · show ((w5500_read_ir_and_clear irStuckChip ()).1 &&&
          (Sn_IR_SENDOK ||| Sn_IR_TIMEOUT ||| Sn_IR_DISCON) == 0) = true
      rfl
    · rfl
  have hstuck := waitEvals_stuck (irWaitStep irStuckChip)
    (fun a : Unit × Nat × List Ev => a.2.1 = 0)
    hstep (MAX_LOOP_ITERATIONS + 1)
    ((WAIT_OR_FAIL MAX_LOOP_ITERATIONS (crClearStep irStuckChip)
        (txSendState irStuckChip [171] (), ([] : List Ev))).2.1, 0, ([] : List Ev)) rfl
  have hw : (txIrWait irStuckChip [171] ()).1 = false := by
    have h := hstuck.1
    simpa only [txIrWait, WAIT_OR_FAIL] using h
  have hir : txFinalIr irStuckChip [171] () = 0 := by
    have h := hstuck.2
    simpa only [txFinalIr, txIrWait, WAIT_OR_FAIL] using h
  refine ⟨hw, by rw [hir]; decide, ?_⟩
  obtain ⟨hret, -⟩ := tx_pass_spec irStuckChip [171] () (by decide) rfl (by decide) (by decide)
  rw [hret, txCompleteWait_ret irStuckChip ([171] : List Nat).length
    (txSendState irStuckChip [171] ()) (by decide)]
  have hir2 : (WAIT_OR_FAIL MAX_LOOP_ITERATIONS (irWaitStep irStuckChip)
      ((WAIT_OR_FAIL MAX_LOOP_ITERATIONS (crClearStep irStuckChip)
          (txSendState irStuckChip [171] (), ([] : List Ev))).2.1, 0, ([] : List Ev))).2.2.1 = 0 := by
    have h := hstuck.2
    simpa only [WAIT_OR_FAIL] using h
  rw [hir2]
  decide

/-- C4: when the stable free size is strictly smaller than the requested
length `w5500_tx` returns zero and its trace consists solely of
`Sn_TX_FSR` reads — no payload write, no `Sn_TX_WR` advance and no SEND
command; when the free size equals the requested length exactly the
transmit proceeds (the SEND command appears in the trace) and, with
send-ok observed and no timeout/disconnect, the full length is
reported. -/
theorem c4_tx_free_space_guard {σ : Type} (c : Chip σ) (buf : List Nat) (st : σ) :
    ((txStage1 c st).1 = true → (txStage1 c st).2.2.1 < buf.length →
      (w5500_tx c buf st).ret = 0 ∧
      ∀ e ∈ (w5500_tx c buf st).trace, ∃ bs, e = Ev.rd SOCKET0_REGISTER Sn_TX_FSR bs) ∧
    ((txStage1 c st).1 = true → (txStage1 c st).2.2.1 = buf.length → buf.length ≠ 0 →
      ¬ (txStatus c st = SOCK_CLOSED ∨ txStatus c st = SOCK_CLOSING ∨
         txStatus c st = SOCK_TIME_WAIT ∨ txStatus c st = SOCK_CLOSE_WAIT) →
      txCrPassed c buf st = true →
      txFinalIr c buf st &&& (Sn_IR_TIMEOUT ||| Sn_IR_DISCON) = 0 →
      (w5500_tx c buf st).ret = buf.length ∧
      ∃ pre post,
        (w5500_tx c buf st).trace = pre ++ [Ev.wr SOCKET0_REGISTER Sn_CR [Sn_CR_SEND]] ++ post) := by
  constructor
  · intro h1 h2
    have h0b : (buf.length == 0) = false := by
      simp only [beq_eq_false_iff_ne, ne_eq]
      omega
    simp only [w5500_tx, h0b, Bool.false_eq_true, if_false, h1, Bool.not_true]
    rw [if_pos h2]
    exact ⟨rfl, txStage1_trace c st⟩
  · intro h1 heq h0 h3 h4 h5
    have h2 : ¬ ((txStage1 c st).2.2.1 < buf.length) := by omega
    obtain ⟨hret, pre, post, htr, -, -⟩ := tx_pass_spec c buf st h0 h1 h2 h3
    refine ⟨?_, pre, post, htr⟩
    rw [hret, txCompleteWait_ret c buf.length (txSendState c buf st) h4]
    rw [if_pos ?flag]
    case flag =>
      have h5b := h5
      simp only [txFinalIr, txIrWait] at h5b
      exact h5b

/-- C4 witness: part one with a chip reporting one free byte against a
2-byte frame; part two with free size 1500 and a 1500-byte frame reported
fully sent. -/
theorem c4_tx_free_space_guard_witness :
    ((w5500_tx txSmallChip [171, 5] ()).ret = 0 ∧
      ∀ e ∈ (w5500_tx txSmallChip [171, 5] ()).trace,
        ∃ bs, e = Ev.rd SOCKET0_REGISTER Sn_TX_FSR bs) ∧
    (w5500_tx txFsChip (List.replicate 1500 171) ()).ret = 1500 := by
  constructor
  · exact (c4_tx_free_space_guard txSmallChip [171, 5] ()).1 rfl (by decide)
  · have h := (c4_tx_free_space_guard txFsChip (List.replicate 1500 171) ()).2 rfl
      (by rw [List.length_replicate]; decide)
      (by rw [List.length_replicate]; omega) (by decide) (by decide) (by decide)
    rw [h.1, List.length_replicate]

/-- C5: `w5500_init` succeeds exactly when the reset wait passes, the
socket-open command-register wait passes, and the socket status register
then reads exactly `SOCK_MACRAW` (0x42); in particular a final status
other than 0x42 makes initialization fail even with no bounded-wait
timeout, and a successful initialization always ends with the status read
returning 0x42 as the last trace event. -/
theorem c5_init_status_check {σ : Type} (c : Chip σ) (mac : Option (List Nat)) (st : σ) :
    ((w5500_init c mac st).ok = true ↔
      ((initMrWait c st).1 = true ∧
       (initCrWait c mac (initMrWait c st).2.1).1 = true ∧
       (w5500_read_byte c (initCrWait c mac (initMrWait c st).2.1).2.1
          SOCKET0_REGISTER Sn_SR).1 = SOCK_MACRAW)) ∧
    ((w5500_init c mac st).ok = true →
      ∃ pre, (w5500_init c mac st).trace =
        pre ++ [Ev.rd SOCKET0_REGISTER Sn_SR [SOCK_MACRAW]]) := by
  cases h1 : (initMrWait c st).1 with
  | false =>
    simp only [w5500_init, h1, Bool.not_false, if_true]
    constructor
    · simp
    · intro hcontra
      simp at hcontra
  | true =>
    cases h2 : (initCrWait c mac (initMrWait c st).2.1).1 with
    | false =>
      simp only [w5500_init, h1, h2, Bool.not_true, Bool.false_eq_true, if_false,
        Bool.not_false, if_true]
      constructor
      · simp
      · intro hcontra
        simp at hcontra
    | true =>
      rcases hsr : w5500_read_byte c (initCrWait c mac (initMrWait c st).2.1).2.1
          SOCKET0_REGISTER Sn_SR with ⟨sr, st10, e10⟩
      have hsrv : (w5500_read_byte c (initCrWait c mac (initMrWait c st).2.1).2.1
          SOCKET0_REGISTER Sn_SR).1 = sr := by rw [hsr]
      simp only [w5500_init, h1, h2, Bool.not_true, Bool.false_eq_true, if_false, hsr]
      constructor
      · simp only [hsrv, beq_iff_eq]
        constructor
        · intro h; exact ⟨trivial, trivial, h⟩
        · intro h; exact h.2.2
      · intro hok
        have hsr42 : sr = SOCK_MACRAW := by
          simpa using hok
        have he10 : e10 = [Ev.rd SOCKET0_REGISTER Sn_SR
            (toBytes 1 (c.rd (initCrWait c mac (initMrWait c st).2.1).2.1
              SOCKET0_REGISTER Sn_SR 1).1)] := by
          have := congrArg (fun t => t.2.2) hsr
          simpa [w5500_read_byte, w5500_read] using this.symm
        have hsrd : sr = (toBytes 1 (c.rd (initCrWait c mac (initMrWait c st).2.1).2.1
            SOCKET0_REGISTER Sn_SR 1).1).headD 0 := by
          have := congrArg (fun t => t.1) hsr
          simpa [w5500_read_byte, w5500_read] using this.symm
        have hbytes : toBytes 1 (c.rd (initCrWait c mac (initMrWait c st).2.1).2.1
            SOCKET0_REGISTER Sn_SR 1).1 = [SOCK_MACRAW] := by
          rw [toBytes_one, ← hsrd, hsr42]
        refine ⟨(initMrWait c st).2.2 ++ (initCrWait c mac (initMrWait c st).2.1).2.2, ?_⟩
        rw [he10, hbytes]

/-- C5 witness: a cleanly initialising chip exercises
`c5_init_status_check`; its trace ends with the MACRAW status read. -/
theorem c5_init_status_check_witness :
    (w5500_init initOkChip none ()).ok = true ∧
    ∃ pre, (w5500_init initOkChip none ()).trace =
      pre ++ [Ev.rd SOCKET0_REGISTER Sn_SR [SOCK_MACRAW]] := by
  have h := c5_init_status_check initOkChip none ()
  have hok : (w5500_init initOkChip none ()).ok = true := by
    apply h.1.mpr
    refine ⟨rfl, rfl, ?_⟩
    decide
  exact ⟨hok, h.2 hok⟩

end Reg

/-! ### Properties of the byte-level SPI protocol -/

namespace Bus

/-- The byte loop of `w5500_spi_io` exchanges exactly its buffer, one
event per byte, and fills the output from the buffer (write) or from the
received bytes (read). -/
theorem spiExchange_spec {τ : Type} (sp : Spi τ) (wr : Bool) :
    ∀ (bytes : List Nat) (st : τ),
      ∃ rs : List Nat, rs.length = bytes.length ∧
        (spiExchange sp wr bytes st).2.2 =
          List.zipWith BusEv.xfer (bytes.map (fun b => b % 256)) rs ∧
        (spiExchange sp wr bytes st).1 =
          (if wr then bytes.map (fun b => b % 256) else rs) := by
  intro bytes
  induction bytes with
  | nil =>
    intro st
    exact ⟨[], rfl, rfl, by cases wr <;> rfl⟩
  | cons b rest ih =>
    intro st
    obtain ⟨rs, hlen, htr, hout⟩ := ih (sp.txn st (b % 256)).2
    refine ⟨(sp.txn st (b % 256)).1 % 256 :: rs, by simp [hlen], ?_, ?_⟩
    · simp only [spiExchange, htr, List.map, List.zipWith]
    · cases wr
      · simp only [spiExchange, hout, List.map, if_false, Bool.false_eq_true]
      · simp only [spiExchange, hout, List.map, if_true]

/-- C8: every register transaction produces exactly the bus sequence
chip-select assert, a 3-byte header (offset high byte, offset low byte,
control byte `(block << 3) | (wr ? 4 : 0)`), one byte exchange per buffer
position (payload bytes sent; on read each position is overwritten by the
byte received), chip-select deassert — `len + 5` events in all, with no
early stop and no error result. -/
theorem c8_spi_transaction_shape {τ : Type} (sp : Spi τ) (st : τ) (block addr : Nat)
    (wr : Bool) (buf : List Nat) :
    ∃ hs rs : List Nat, hs.length = 3 ∧ rs.length = buf.length ∧
      (w5500_spi_xfer sp block addr wr buf st).2.2 =
        BusEv.select ::
          List.zipWith BusEv.xfer
            ([(addr % 65536) / 256, addr % 65536 % 256,
              (block % 256 * 8 + (if wr then 4 else 0)) % 256] ++ buf.map (fun b => b % 256))
            (hs ++ rs) ++ [BusEv.deselect] ∧
      (w5500_spi_xfer sp block addr wr buf st).1 =
        (if wr then buf.map (fun b => b % 256) else rs) ∧
      (w5500_spi_xfer sp block addr wr buf st).2.2.length = buf.length + 5 := by
  obtain ⟨hs, hhlen, hhtr, -⟩ := spiExchange_spec sp true
    [(addr % 65536) / 256, addr % 65536 % 256,
     (block % 256 * 8 + (if wr then 4 else 0)) % 256] (sp.begin st)
  obtain ⟨rs, hrlen, hrtr, hrout⟩ := spiExchange_spec sp wr buf
    (spiExchange sp true
      [(addr % 65536) / 256, addr % 65536 % 256,
       (block % 256 * 8 + (if wr then 4 else 0)) % 256] (sp.begin st)).2.1
  have hcmd : ([(addr % 65536) / 256, addr % 65536 % 256,
      (block % 256 * 8 + (if wr then 4 else 0)) % 256].map (fun b => b % 256)) =
      [(addr % 65536) / 256, addr % 65536 % 256,
       (block % 256 * 8 + (if wr then 4 else 0)) % 256] := by
    simp only [List.map]
    refine congrArg₂ _ ?_ (congrArg₂ _ ?_ (congrArg₂ _ ?_ rfl)) <;> omega
  rw [hcmd] at hhtr
  refine ⟨hs, rs, hhlen, hrlen, ?_, ?_, ?_⟩
  · simp only [w5500_spi_xfer, hhtr, hrtr]
    rw [List.zipWith_append _ _ _ _ _ (by rw [hhlen])]
  · simp only [w5500_spi_xfer, hrout]
  · simp only [w5500_spi_xfer, List.length_append, List.length_cons, hhtr, hrtr,
      List.length_zipWith, List.length_map, hhlen, hrlen]
    simp
    omega

/-- The three header bytes of a fresh transaction are collected into the
chip-side header latch, leaving memory and the auto-increment counter
untouched. -/
theorem chip_header_phase (m : Nat → Nat → Nat) (c0 c1 c2 : Nat)
    (h0 : c0 < 256) (h1 : c1 < 256) (h2 : c2 < 256) :
    (spiExchange chipSpi true [c0, c1, c2] ⟨m, [], 0⟩).2.1 = ⟨m, [c0, c1, c2], 0⟩ := by
  simp [spiExchange, chipSpi, chipTxn, Nat.mod_eq_of_lt h0, Nat.mod_eq_of_lt h1,
    Nat.mod_eq_of_lt h2]

set_option maxRecDepth 4000 in
/-- Payload phase of a write transaction: the chip stores each byte at the
auto-incremented address; addresses outside the written window keep their
old contents, and each window position whose address is not revisited later
holds its byte. -/
theorem chip_write_loop :
    ∀ (bytes : List Nat) (st : ChipSt) (hh ll ctl : Nat),
      st.hdr = [hh, ll, ctl] → (ctl / 4) % 2 = 1 →
      ((spiExchange chipSpi true bytes st).2.1.hdr = st.hdr ∧
       (spiExchange chipSpi true bytes st).2.1.cnt = st.cnt + bytes.length) ∧
      (∀ bl ad,
        (∀ j, j < bytes.length → ¬ (bl = ctl / 8 ∧ ad = (hh * 256 + ll + st.cnt + j) % 65536)) →
        (spiExchange chipSpi true bytes st).2.1.mem bl ad = st.mem bl ad) ∧
      (∀ j, j < bytes.length →
        (∀ i, j < i → i < bytes.length →
          (hh * 256 + ll + st.cnt + i) % 65536 ≠ (hh * 256 + ll + st.cnt + j) % 65536) →
        (spiExchange chipSpi true bytes st).2.1.mem (ctl / 8)
          ((hh * 256 + ll + st.cnt + j) % 65536) = bytes.getD j 0 % 256) := by
  intro bytes
  induction bytes with
  | nil =>
    intro st hh ll ctl hhdr hwr
    refine ⟨⟨rfl, rfl⟩, fun bl ad _ => rfl, fun j hj _ => absurd hj (by simp)⟩
  | cons b rest ih =>
    intro st hh ll ctl hhdr hwr
    have hstep : chipTxn st (b % 256) =
        (0, { st with
                mem := fun bl ad =>
                  if bl == ctl / 8 && ad == (hh * 256 + ll + st.cnt) % 65536 then b % 256 % 256
                  else st.mem bl ad,
                cnt := st.cnt + 1 }) := by
      simp only [chipTxn, hhdr, hwr]
      simp
    have hrec : spiExchange chipSpi true (b :: rest) st =
        ((b % 256) :: (spiExchange chipSpi true rest (chipTxn st (b % 256)).2).1,
         (spiExchange chipSpi true rest (chipTxn st (b % 256)).2).2.1,
         BusEv.xfer (b % 256) ((chipTxn st (b % 256)).1 % 256) ::
           (spiExchange chipSpi true rest (chipTxn st (b % 256)).2).2.2) := rfl
    set st1 : ChipSt :=
      { st with
          mem := fun bl ad =>
            if bl == ctl / 8 && ad == (hh * 256 + ll + st.cnt) % 65536 then b % 256 % 256
            else st.mem bl ad,
          cnt := st.cnt + 1 } with hst1
    have hst1p : (chipTxn st (b % 256)).2 = st1 := by rw [hstep]
    have hhdr1 : st1.hdr = [hh, ll, ctl] := hhdr
    obtain ⟨⟨ihh, ihc⟩, ihun, ihtg⟩ := ih st1 hh ll ctl hhdr1 hwr
    rw [hrec, hst1p]
    refine ⟨⟨by rw [ihh], by rw [ihc]; simp [hst1]; omega⟩, ?_, ?_⟩
    · intro bl ad hnone
      have h1 : ∀ j, j < rest.length →
          ¬ (bl = ctl / 8 ∧ ad = (hh * 256 + ll + st1.cnt + j) % 65536) := by
        intro j hj
        have := hnone (j + 1) (by simp; omega)
        have harith : hh * 256 + ll + st.cnt + (j + 1) = hh * 256 + ll + st1.cnt + j := by
          simp [hst1]
          omega
        rw [harith] at this
        exact this
      rw [ihun bl ad h1]
      have h0 := hnone 0 (by simp)
      simp only [hst1]
      simp only [Nat.add_zero] at h0
      by_cases hbl : bl = ctl / 8
      · by_cases had : ad = (hh * 256 + ll + st.cnt) % 65536
        · exact absurd ⟨hbl, had⟩ h0
        · simp [hbl, had]
      · simp [hbl]
    · intro j hj hfresh
      cases j with
      | zero =>
        have h1 : ∀ jj, jj < rest.length →
            ¬ (ctl / 8 = ctl / 8 ∧
               (hh * 256 + ll + st.cnt + 0) % 65536 = (hh * 256 + ll + st1.cnt + jj) % 65536) := by
          intro jj hjj hcontra
          have := hfresh (jj + 1) (by omega) (by simp; omega)
          have harith : hh * 256 + ll + st.cnt + (jj + 1) = hh * 256 + ll + st1.cnt + jj := by
            simp [hst1]
            omega
          rw [harith] at this
          exact this hcontra.2.symm
        rw [ihun (ctl / 8) ((hh * 256 + ll + st.cnt + 0) % 65536) h1]
        simp only [hst1, Nat.add_zero]
        simp
      | succ jp =>
        have harith : hh * 256 + ll + st.cnt + (jp + 1) = hh * 256 + ll + st1.cnt + jp := by
          simp [hst1]
          omega
        rw [harith]
        have := ihtg jp (by simp at hj; omega) ?fresh
        case fresh =>
          intro i hlt hib
          have := hfresh (i + 1) (by omega) (by simp; omega)
          have ha1 : hh * 256 + ll + st.cnt + (i + 1) = hh * 256 + ll + st1.cnt + i := by
            simp [hst1]
            omega
          rw [ha1, harith] at this
          exact this
        rw [this]
        rfl

/-- Payload phase of a read transaction: memory is untouched and the
outputs are the memory bytes at the auto-incremented addresses. -/
theorem chip_read_loop :
    ∀ (buf0 : List Nat) (st : ChipSt) (hh ll ctl : Nat),
      st.hdr = [hh, ll, ctl] → (ctl / 4) % 2 = 0 →
      (spiExchange chipSpi false buf0 st).2.1.mem = st.mem ∧
      (spiExchange chipSpi false buf0 st).1 =
        (List.range buf0.length).map
          (fun j => st.mem (ctl / 8) ((hh * 256 + ll + st.cnt + j) % 65536) % 256) := by
  intro buf0
  induction buf0 with
  | nil =>
    intro st hh ll ctl hhdr hrd
    exact ⟨rfl, rfl⟩
  | cons b rest ih =>
    intro st hh ll ctl hhdr hrd
    have hstep : chipTxn st (b % 256) =
        (st.mem (ctl / 8) ((hh * 256 + ll + st.cnt) % 65536) % 256,
         { st with cnt := st.cnt + 1 }) := by
      simp only [chipTxn, hhdr]
      have : ((ctl / 4) % 2 == 1) = false := by
        rw [hrd]
        rfl
      simp [this]
    have hrec : spiExchange chipSpi false (b :: rest) st =
        (((chipTxn st (b % 256)).1 % 256) ::
           (spiExchange chipSpi false rest (chipTxn st (b % 256)).2).1,
         (spiExchange chipSpi false rest (chipTxn st (b % 256)).2).2.1,
         BusEv.xfer (b % 256) ((chipTxn st (b % 256)).1 % 256) ::
           (spiExchange chipSpi false rest (chipTxn st (b % 256)).2).2.2) := rfl
    obtain ⟨ihm, ihout⟩ := ih { st with cnt := st.cnt + 1 } hh ll ctl hhdr hrd
    rw [hrec, hstep]
    refine ⟨ihm, ?_⟩
    simp only [ihout]
    simp only [List.length_cons, List.range_succ_eq_map, List.map_cons, List.map_map]
    refine congrArg₂ _ (by simp) ?_
    refine List.map_congr_left ?_
    intro j hj
    simp only [Function.comp]
    have harith : hh * 256 + ll + (st.cnt + 1) + j = hh * 256 + ll + st.cnt + (j + 1) := by
      omega
    rw [harith]

/-- Write-then-read round trip on the protocol chip model, byte-buffer
form. -/
theorem roundtrip_bytes (st : ChipSt) (block addr : Nat) (bytes buf0 : List Nat)
    (hlen : bytes.length ≤ 65536) (hbytes : ∀ x ∈ bytes, x < 256)
    (hbuf : buf0.length = bytes.length) :
    (w5500_read chipSpi block addr buf0
      ((w5500_write chipSpi block addr bytes st).2.1)).1 = bytes := by
  have e2 : (spiExchange chipSpi true
      [(addr % 65536) / 256, addr % 65536 % 256, (block % 256 * 8 + 4) % 256]
      (⟨st.mem, [], 0⟩ : ChipSt)).2.1 =
      (⟨st.mem, [(addr % 65536) / 256, addr % 65536 % 256, (block % 256 * 8 + 4) % 256],
        0⟩ : ChipSt) :=
    chip_header_phase st.mem _ _ _ (by omega) (by omega) (by omega)
  have e1 : (w5500_write chipSpi block addr bytes st).2.1 =
      (spiExchange chipSpi true bytes
        (⟨st.mem, [(addr % 65536) / 256, addr % 65536 % 256, (block % 256 * 8 + 4) % 256],
          0⟩ : ChipSt)).2.1 := by
    rw [← e2]
    rfl
  obtain ⟨⟨hdrW, cntW⟩, unW, tgW⟩ := chip_write_loop bytes
    (⟨st.mem, [(addr % 65536) / 256, addr % 65536 % 256, (block % 256 * 8 + 4) % 256],
      0⟩ : ChipSt)
    ((addr % 65536) / 256) (addr % 65536 % 256) ((block % 256 * 8 + 4) % 256)
    rfl (by omega)
  rw [e1]
  have e4 : (w5500_read chipSpi block addr buf0
      ((spiExchange chipSpi true bytes
        (⟨st.mem, [(addr % 65536) / 256, addr % 65536 % 256, (block % 256 * 8 + 4) % 256],
          0⟩ : ChipSt)).2.1)).1 =
      (spiExchange chipSpi false buf0
        (spiExchange chipSpi true
          [(addr % 65536) / 256, addr % 65536 % 256, (block % 256 * 8 + 0) % 256]
          (⟨((spiExchange chipSpi true bytes
              (⟨st.mem, [(addr % 65536) / 256, addr % 65536 % 256,
                (block % 256 * 8 + 4) % 256], 0⟩ : ChipSt)).2.1).mem, [], 0⟩ : ChipSt)).2.1).1 :=
    rfl
  rw [e4]
  have e5 : (spiExchange chipSpi true
      [(addr % 65536) / 256, addr % 65536 % 256, (block % 256 * 8 + 0) % 256]
      (⟨((spiExchange chipSpi true bytes
          (⟨st.mem, [(addr % 65536) / 256, addr % 65536 % 256,
            (block % 256 * 8 + 4) % 256], 0⟩ : ChipSt)).2.1).mem, [], 0⟩ : ChipSt)).2.1 =
      (⟨((spiExchange chipSpi true bytes
          (⟨st.mem, [(addr % 65536) / 256, addr % 65536 % 256,
            (block % 256 * 8 + 4) % 256], 0⟩ : ChipSt)).2.1).mem,
        [(addr % 65536) / 256, addr % 65536 % 256, (block % 256 * 8 + 0) % 256],
        0⟩ : ChipSt) :=
    chip_header_phase _ _ _ _ (by omega) (by omega) (by omega)
  rw [e5]
  obtain ⟨-, hout⟩ := chip_read_loop buf0
    (⟨((spiExchange chipSpi true bytes
        (⟨st.mem, [(addr % 65536) / 256, addr % 65536 % 256,
          (block % 256 * 8 + 4) % 256], 0⟩ : ChipSt)).2.1).mem,
      [(addr % 65536) / 256, addr % 65536 % 256, (block % 256 * 8 + 0) % 256],
      0⟩ : ChipSt)
    ((addr % 65536) / 256) (addr % 65536 % 256) ((block % 256 * 8 + 0) % 256)
    rfl (by omega)
  rw [hout, hbuf]
  refine List.ext_getElem (by simp) ?_
  intro i h1 h2
  simp only [List.getElem_map, List.getElem_range]
  have hi : i < bytes.length := by simpa using h2
  have haddr : (addr % 65536) / 256 * 256 + addr % 65536 % 256 +
      (⟨((spiExchange chipSpi true bytes
          (⟨st.mem, [(addr % 65536) / 256, addr % 65536 % 256,
            (block % 256 * 8 + 4) % 256], 0⟩ : ChipSt)).2.1).mem,
        [(addr % 65536) / 256, addr % 65536 % 256, (block % 256 * 8 + 0) % 256],
        0⟩ : ChipSt).cnt + i = addr % 65536 + i := by
    show (addr % 65536) / 256 * 256 + addr % 65536 % 256 + 0 + i = addr % 65536 + i
    omega
  rw [haddr]
  have hblk : ((block % 256 * 8 + 0) % 256) / 8 = ((block % 256 * 8 + 4) % 256) / 8 := by
    omega
  rw [hblk]
  have htg := tgW i hi ?fresh
  case fresh =>
    intro j hji hjlen
    have haddr2 : ∀ k : Nat, (addr % 65536) / 256 * 256 + addr % 65536 % 256 +
        (⟨st.mem, [(addr % 65536) / 256, addr % 65536 % 256,
          (block % 256 * 8 + 4) % 256], 0⟩ : ChipSt).cnt + k = addr % 65536 + k := by
      intro k
      show (addr % 65536) / 256 * 256 + addr % 65536 % 256 + 0 + k = addr % 65536 + k
      omega
    rw [haddr2, haddr2]
    have hib : i < 65536 := by omega
    have hjb : j < 65536 := by omega
    intro hcontra
    omega
  have haddr3 : (addr % 65536) / 256 * 256 + addr % 65536 % 256 +
      (⟨st.mem, [(addr % 65536) / 256, addr % 65536 % 256,
        (block % 256 * 8 + 4) % 256], 0⟩ : ChipSt).cnt + i = addr % 65536 + i := by
    show (addr % 65536) / 256 * 256 + addr % 65536 % 256 + 0 + i = addr % 65536 + i
    omega
  rw [haddr3] at htg
  show (⟨((spiExchange chipSpi true bytes
      (⟨st.mem, [(addr % 65536) / 256, addr % 65536 % 256,
        (block % 256 * 8 + 4) % 256], 0⟩ : ChipSt)).2.1).mem,
    [(addr % 65536) / 256, addr % 65536 % 256, (block % 256 * 8 + 0) % 256],
    0⟩ : ChipSt).mem (((block % 256 * 8 + 4) % 256) / 8) ((addr % 65536 + i) % 65536) % 256
    = bytes[i]
  show ((spiExchange chipSpi true bytes
      (⟨st.mem, [(addr % 65536) / 256, addr % 65536 % 256,
        (block % 256 * 8 + 4) % 256], 0⟩ : ChipSt)).2.1).mem
    (((block % 256 * 8 + 4) % 256) / 8) ((addr % 65536 + i) % 65536) % 256 = bytes[i]
  rw [htg]
  have hb : bytes.getD i 0 < 256 := by
    have := hbytes (bytes.getD i 0) ?mem
    · exact this
    case mem =>
      rw [List.getD_eq_getElem bytes 0 hi]
      exact List.getElem_mem hi
  rw [Nat.mod_eq_of_lt hb, Nat.mod_eq_of_lt hb]
  rw [List.getD_eq_getElem bytes 0 hi]

/-- C7: against the protocol chip model, a register write followed by a
register read of the same block, address and length returns exactly the
written bytes (no other transaction intervening), and the word wrappers —
which encode most-significant byte first — satisfy the same round trip:
a word write followed by a word read of the same address is the
identity. -/
theorem c7_write_read_roundtrip (st : ChipSt) (block addr : Nat) (bytes buf0 : List Nat)
    (hlen : bytes.length ≤ 65536) (hbytes : ∀ x ∈ bytes, x < 256)
    (hbuf : buf0.length = bytes.length) :
    (w5500_read chipSpi block addr buf0
      ((w5500_write chipSpi block addr bytes st).2.1)).1 = bytes ∧
    ∀ (val : Nat) (st2 : ChipSt), val < 65536 →
      (w5500_read_word chipSpi block addr
        ((w5500_write_word chipSpi block addr val st2).2.1)).1 = val := by
  refine ⟨roundtrip_bytes st block addr bytes buf0 hlen hbytes hbuf, ?_⟩
  intro val st2 hval
  have h : (w5500_read chipSpi block addr [0, 0]
      ((w5500_write chipSpi block addr [val % 65536 / 256, val % 65536 % 256] st2).2.1)).1 =
      [val % 65536 / 256, val % 65536 % 256] :=
    roundtrip_bytes st2 block addr [val % 65536 / 256, val % 65536 % 256] [0, 0]
      (by simp) ?bounds (by simp)
  case bounds =>
    intro x hx
    simp only [List.mem_cons, List.not_mem_nil, or_false] at hx
    rcases hx with rfl | rfl <;> omega
  have hrw : (w5500_read_word chipSpi block addr
      ((w5500_write_word chipSpi block addr val st2).2.1)).1 =
      (w5500_read chipSpi block addr [0, 0]
        ((w5500_write chipSpi block addr [val % 65536 / 256, val % 65536 % 256] st2).2.1)).1.getD 0 0
      * 256 +
      (w5500_read chipSpi block addr [0, 0]
        ((w5500_write chipSpi block addr [val % 65536 / 256, val % 65536 % 256] st2).2.1)).1.getD 1 0 :=
    rfl
  rw [hrw, h]
  simp only [List.getD]
  simp
  omega

/-- C7 witness: a 3-byte buffer round trip and a word round trip on a
concrete zeroed chip. -/
theorem c7_write_read_roundtrip_witness :
    (w5500_read chipSpi 1 0x1234 [0, 0, 0]
      ((w5500_write chipSpi 1 0x1234 [1, 2, 3] ⟨fun _ _ => 0, [], 0⟩).2.1)).1 = [1, 2, 3] ∧
    (w5500_read_word chipSpi 1 0x1234
      ((w5500_write_word chipSpi 1 0x1234 0xABCD ⟨fun _ _ => 0, [], 0⟩).2.1)).1 = 0xABCD := by
  obtain ⟨h1, h2⟩ := c7_write_read_roundtrip (⟨fun _ _ => 0, [], 0⟩ : ChipSt) 1 0x1234
    [1, 2, 3] [0, 0, 0] (by decide) (by decide) (by decide)
  exact ⟨h1, h2 0xABCD ⟨fun _ _ => 0, [], 0⟩ (by decide)⟩

end Bus

/-- C10: every driver operation terminates with a bounded amount of chip
interaction on every input and every chip behaviour.  The bounded-wait
cap allows at most `MAX_LOOP_ITERATIONS + 1 = 1001` condition
evaluations, and the four driver operations perform a bounded number of
register accesses: at most 3008 events for a receive, 5010 for a
transmit, 2011 for initialization and 1 for a link poll. -/
theorem c10_bounded_operations :
    MAX_LOOP_ITERATIONS + 1 = 1001 ∧
    (∀ (α : Type) (cond : α → Bool × α) (a : α),
      (WAIT_OR_FAIL MAX_LOOP_ITERATIONS (countingCond cond) (a, 0)).2.2 ≤
        MAX_LOOP_ITERATIONS + 1) ∧
    (∀ (σ : Type) (c : Reg.Chip σ) (buflen : Nat) (st : σ),
      (Reg.w5500_rx c buflen st).trace.length ≤ 3008) ∧
    (∀ (σ : Type) (c : Reg.Chip σ) (buf : List Nat) (st : σ),
      (Reg.w5500_tx c buf st).trace.length ≤ 5010) ∧
    (∀ (σ : Type) (c : Reg.Chip σ) (mac : Option (List Nat)) (st : σ),
      (Reg.w5500_init c mac st).trace.length ≤ 2011) ∧
    (∀ (σ : Type) (c : Reg.Chip σ) (s1 : Bool) (st : σ),
      (Reg.w5500_poll c s1 st).2.2.length ≤ 1) := by
  refine ⟨rfl, ?_, ?_, ?_, ?_, ?_⟩
  · intro α cond a
    have := waitEvals_count cond (MAX_LOOP_ITERATIONS + 1) a 0
    simpa [WAIT_OR_FAIL] using this
  · intro σ c buflen st
    exact Reg.rx_trace_len c buflen st
  · intro σ c buf st
    exact Reg.tx_trace_len c buf st
  · intro σ c mac st
    exact Reg.init_trace_len c mac st
  · intro σ c s1 st
    exact Reg.poll_trace_len c s1 st

end W5500
